import Mathlib

/-!
Verification development for the cloud-instance-github-runner scripts.

The repository contains three Python scripts:
* `scripts/select_instance.py`  — the Selector: queries a spot-price advisor
  with a prioritized list of (CPU, memory) strategies, filters the offers and
  writes a pipe-delimited candidate file;
* `scripts/create_spot_instance.py` — the Provisioner: consumes the candidate
  file (or a single configured instance type) and retries instance creation
  over candidates and disk categories;
* `scripts/write_user_data.py` — the UserData writer: decodes a base64 payload
  and writes it to a file.

This file gives a shallow embedding of the decision logic of those scripts.
External processes (the cloud CLI and the advisor binary) are modelled as
oracles: functions from the invocation's arguments to the pair
(exit code, combined output).  Python `float` arithmetic is modelled with
exact rationals (`ℚ`); Python exceptions that escape a function are modelled
with `Option`/`none`.  Each modelled definition names the source function it
embeds.
-/

/-! ## Python-level string and number primitives -/

/-- Whitespace set of Python's `str.strip()` (ASCII part). -/
def isPySpace (c : Char) : Bool :=
  c = ' ' || c = '\t' || c = '\n' || c = '\r' || c = '\x0B' || c = '\x0C'

/-- Strip `isPySpace` characters from both ends of a character list. -/
def pyStripList (l : List Char) : List Char :=
  ((l.dropWhile isPySpace).reverse.dropWhile isPySpace).reverse

/-- Model of Python `str.strip()` (with no argument). -/
def pyStrip (s : String) : String := String.mk (pyStripList s.data)

/-- Boolean prefix test on character lists, structured to reduce on the
needle first. -/
def listIsPre : List Char → List Char → Bool
  | [] => fun _ => true
  | a :: as => fun l2 =>
    match l2 with
    | [] => false
    | b :: bs => a == b && listIsPre as bs

/-- Contiguous-subsequence test on character lists. -/
def listContainsSeq (hay needle : List Char) : Bool :=
  hay.tails.any (fun t => listIsPre needle t)

/-- Model of the Python substring test `needle in hay`. -/
def strContains (hay needle : String) : Bool :=
  listContainsSeq hay.data needle.data

/-- Numeric value of an ASCII digit. -/
def digitVal (c : Char) : Nat := c.toNat - 48

/-- Value of a most-significant-first ASCII digit list. -/
def digitsToNat (l : List Char) : Nat :=
  l.foldl (fun a c => 10 * a + digitVal c) 0

/-- Tail of the digit grammar of Python `int()`: digits with single
underscores allowed between digits. -/
def intBodyRest : List Char → Bool
  | [] => true
  | '_' :: c :: rest => c.isDigit && intBodyRest rest
  | c :: rest => c.isDigit && intBodyRest rest

/-- Digit body of Python `int()`: nonempty, starts with a digit, single
underscores only between digits. -/
def intBodyOk : List Char → Bool
  | [] => false
  | c :: rest => c.isDigit && intBodyRest rest

/-- Value denoted by an `intBodyOk` body (underscores discarded). -/
def intBodyVal (l : List Char) : Nat :=
  digitsToNat (l.filter Char.isDigit)

/-- Model of Python `int(s)` on a string: strips whitespace, accepts an
optional sign and an underscore-separated digit body; `none` models the
`ValueError` raised on any other input.  (Non-ASCII digits are not
modelled.) -/
def pyInt (s : String) : Option Int :=
  match pyStripList s.data with
  | '+' :: rest => if intBodyOk rest then some (intBodyVal rest : Int) else none
  | '-' :: rest => if intBodyOk rest then some (-(intBodyVal rest : Int)) else none
  | rest => if intBodyOk rest then some (intBodyVal rest : Int) else none

/-- Split a list into its leading run of ASCII digits and the remainder. -/
def takeDigits (l : List Char) : List Char × List Char :=
  (l.takeWhile Char.isDigit, l.dropWhile Char.isDigit)

/-- Apply a base-ten exponent to a rational. -/
def applyExp10 (q : ℚ) (e : Int) : ℚ :=
  if 0 ≤ e then q * (10 : ℚ) ^ e.toNat else q / (10 : ℚ) ^ (-e).toNat

/-- Exponent suffix of a Python float literal (must consume the rest). -/
def parseExpSuffix : List Char → Option Int
  | [] => some 0
  | 'e' :: rest =>
    (match rest with
     | '+' :: ds => if ds ≠ [] && ds.all Char.isDigit then some (digitsToNat ds : Int) else none
     | '-' :: ds => if ds ≠ [] && ds.all Char.isDigit then some (-(digitsToNat ds : Int)) else none
     | ds => if ds ≠ [] && ds.all Char.isDigit then some (digitsToNat ds : Int) else none)
  | 'E' :: rest =>
    (match rest with
     | '+' :: ds => if ds ≠ [] && ds.all Char.isDigit then some (digitsToNat ds : Int) else none
     | '-' :: ds => if ds ≠ [] && ds.all Char.isDigit then some (-(digitsToNat ds : Int)) else none
     | ds => if ds ≠ [] && ds.all Char.isDigit then some (digitsToNat ds : Int) else none)
  | _ => none

/-- Unsigned part of a Python float literal: `digits [. digits] [exp]` or
`. digits [exp]`. -/
def pyFloatCore (l : List Char) : Option ℚ :=
  let (ip, r1) := takeDigits l
  match r1 with
  | '.' :: r2 =>
    let (fp, r3) := takeDigits r2
    if ip = [] && fp = [] then none
    else
      (parseExpSuffix r3).map (fun e =>
        applyExp10 ((digitsToNat (ip ++ fp) : ℚ) / (10 : ℚ) ^ fp.length) e)
  | _ =>
    if ip = [] then none
    else (parseExpSuffix r1).map (fun e => applyExp10 (digitsToNat ip : ℚ) e)

/-- Model of Python `float(s)` as an exact rational; `none` models
`ValueError`.  (Binary rounding of the IEEE double, `inf`/`nan` spellings and
underscores in literals are not modelled; nothing in the verified claims
depends on them.) -/
def pyFloat (s : String) : Option ℚ :=
  match pyStripList s.data with
  | '+' :: rest => pyFloatCore rest
  | '-' :: rest => (pyFloatCore rest).map (fun q => -q)
  | rest => pyFloatCore rest

/-- Round a rational to the nearest integer, ties to even — the rounding used
by Python's fixed-point float formatting. -/
def roundHalfEven (q : ℚ) : Int :=
  let f : Int := ⌊q⌋
  let r : ℚ := q - (f : ℚ)
  if r < 1/2 then f
  else if 1/2 < r then f + 1
  else if f % 2 = 0 then f else f + 1

/-- Left-pad a string with zeros to the given length. -/
def padLeftZeros (s : String) (n : Nat) : String :=
  String.mk (List.replicate (n - s.length) '0') ++ s

/-- Render a nonnegative multiple-of-ten-thousandths count as `d.dddd`. -/
def formatFixed4Nat (n : Nat) : String :=
  toString (n / 10000) ++ "." ++ padLeftZeros (toString (n % 10000)) 4

/-- Model of the Python format `f"{q:.4f}"` over the exact rational value of
`q` (the sign of a negative value rounding to zero is not modelled; the spot
prices formatted by the scripts are nonnegative). -/
def formatFixed4 (q : ℚ) : String :=
  let n := roundHalfEven (q * 10000)
  if n < 0 then "-" ++ formatFixed4Nat (-n).toNat else formatFixed4Nat n.toNat

/-- Truthiness of an optional string, as Python sees `None` and `""`. -/
def optStrTruthy : Option String → Bool
  | none => false
  | some s => s != ""

/-- Accumulating worker for `splitOnChar`. -/
def splitOnCharGo (sep : Char) : List Char → List Char → List String
  | [], acc => [String.mk acc.reverse]
  | c :: rest, acc =>
    if c = sep then String.mk acc.reverse :: splitOnCharGo sep rest []
    else splitOnCharGo sep rest (c :: acc)

/-- Model of Python `s.split(sep)` for a one-character separator. -/
def splitOnChar (sep : Char) (s : String) : List String :=
  splitOnCharGo sep s.data []

/-- Model of Python `str.lower()` (ASCII range). -/
def pyLower (s : String) : String := String.mk (s.data.map Char.toLower)

/-! ## JSON values and a model of `json.loads`

Python's `json.loads` distinguishes integer literals (no fraction, no
exponent) from float literals; the scripts' behaviour depends on that
distinction (`str()` of an `int` re-parses with `int()`, `str()` of a float
does not), so the model keeps it. -/

/-- Parsed JSON value.  Numbers carry exact rationals. -/
inductive JVal : Type
  | jnull : JVal
  | jbool : Bool → JVal
  | jint : Int → JVal
  | jnum : ℚ → JVal
  | jstr : String → JVal
  | jarr : List JVal → JVal
  | jobj : List (String × JVal) → JVal

/-- Python-dict lookup on a parsed object: the last binding of a duplicated
key wins, as in `json.loads`. -/
def dictGet (kvs : List (String × JVal)) (k : String) : Option JVal :=
  (kvs.reverse.find? (fun p => p.1 = k)).map (fun p => p.2)

/-- JSON insignificant whitespace. -/
def skipWs (l : List Char) : List Char :=
  l.dropWhile (fun c => c = ' ' || c = '\t' || c = '\n' || c = '\r')

/-- Hexadecimal digit value. -/
def hexVal (c : Char) : Option Nat :=
  if c.isDigit then some (c.toNat - 48)
  else if 'a' ≤ c && c ≤ 'f' then some (c.toNat - 87)
  else if 'A' ≤ c && c ≤ 'F' then some (c.toNat - 55)
  else none

/-- JSON string body after the opening quote; accumulator holds the decoded
characters in reverse.  (Surrogate-pair combination for `\uXXXX` escapes is
not modelled; no claim exercises it.) -/
def parseJStrGo : List Char → List Char → Option (String × List Char)
  | [], _ => none
  | '"' :: rest, acc => some (String.mk acc.reverse, rest)
  | '\\' :: rest, acc =>
    (match rest with
     | '"' :: r => parseJStrGo r ('"' :: acc)
     | '\\' :: r => parseJStrGo r ('\\' :: acc)
     | '/' :: r => parseJStrGo r ('/' :: acc)
     | 'b' :: r => parseJStrGo r ('\x08' :: acc)
     | 'f' :: r => parseJStrGo r ('\x0C' :: acc)
     | 'n' :: r => parseJStrGo r ('\n' :: acc)
     | 'r' :: r => parseJStrGo r ('\r' :: acc)
     | 't' :: r => parseJStrGo r ('\t' :: acc)
     | 'u' :: h1 :: h2 :: h3 :: h4 :: r =>
       (match hexVal h1, hexVal h2, hexVal h3, hexVal h4 with
        | some a, some b, some c, some d =>
          parseJStrGo r (Char.ofNat (((a * 16 + b) * 16 + c) * 16 + d) :: acc)
        | _, _, _, _ => none)
     | _ => none)
  | c :: rest, acc =>
    if c.toNat < 32 then none else parseJStrGo rest (c :: acc)

/-- JSON number: `-? int frac? exp?` with a strict integer part.  Yields
`JVal.jint` when neither fraction nor exponent is present, else `JVal.jnum`,
matching the int/float distinction of `json.loads`. -/
def parseJNum (l : List Char) : Option (JVal × List Char) :=
  let (neg, l1) := match l with
    | '-' :: r => (true, r)
    | r => (false, r)
  let (ip, r1) := takeDigits l1
  if ip = [] then none
  else if ip.length > 1 && ip.headI = '0' then none
  else
    let (fp, r2) := match r1 with
      | '.' :: rf =>
        let (ds, rr) := takeDigits rf
        (some ds, rr)
      | _ => (none, r1)
    match fp with
    | some [] => none
    | _ =>
      let (ex, r3) := match r2 with
        | 'e' :: re =>
          (match re with
           | '+' :: ds => (some (true, takeDigits ds), (takeDigits ds).2)
           | '-' :: ds => (some (false, takeDigits ds), (takeDigits ds).2)
           | ds => (some (true, takeDigits ds), (takeDigits ds).2))
        | 'E' :: re =>
          (match re with
           | '+' :: ds => (some (true, takeDigits ds), (takeDigits ds).2)
           | '-' :: ds => (some (false, takeDigits ds), (takeDigits ds).2)
           | ds => (some (true, takeDigits ds), (takeDigits ds).2))
        | _ => (none, r2)
      match ex with
      | some (_, ([], _)) => none
      | _ =>
        let frac := fp.getD []
        let expv : Int := match ex with
          | some (pos, (ds, _)) => if pos then (digitsToNat ds : Int) else -(digitsToNat ds : Int)
          | none => 0
        let mag : ℚ := applyExp10 ((digitsToNat (ip ++ frac) : ℚ) / (10 : ℚ) ^ frac.length) expv
        let isInt := fp.isNone && ex.isNone
        let signed : ℚ := if neg then -mag else mag
        let v : JVal := if isInt
          then JVal.jint (if neg then -(digitsToNat ip : Int) else (digitsToNat ip : Int))
          else JVal.jnum signed
        some (v, r3)

mutual

/-- JSON value parser (fuel-indexed recursive descent). -/
def parseJVal : Nat → List Char → Option (JVal × List Char)
  | 0, _ => none
  | fuel + 1, l =>
    match skipWs l with
    | 'n' :: 'u' :: 'l' :: 'l' :: r => some (JVal.jnull, r)
    | 't' :: 'r' :: 'u' :: 'e' :: r => some (JVal.jbool true, r)
    | 'f' :: 'a' :: 'l' :: 's' :: 'e' :: r => some (JVal.jbool false, r)
    | '"' :: r => (parseJStrGo r []).map (fun p => (JVal.jstr p.1, p.2))
    | '[' :: r =>
      (match skipWs r with
       | ']' :: r2 => some (JVal.jarr [], r2)
       | r2 => (parseJArrElems fuel r2).map (fun p => (JVal.jarr p.1, p.2)))
    | '{' :: r =>
      (match skipWs r with
       | '}' :: r2 => some (JVal.jobj [], r2)
       | r2 => (parseJObjElems fuel r2).map (fun p => (JVal.jobj p.1, p.2)))
    | l2 => parseJNum l2

/-- Comma-separated array elements, up to and including the closing bracket. -/
def parseJArrElems : Nat → List Char → Option (List JVal × List Char)
  | 0, _ => none
  | fuel + 1, l =>
    match parseJVal fuel l with
    | some (v, r) =>
      (match skipWs r with
       | ',' :: r2 => (parseJArrElems fuel r2).map (fun p => (v :: p.1, p.2))
       | ']' :: r2 => some ([v], r2)
       | _ => none)
    | none => none

/-- Comma-separated object members, up to and including the closing brace. -/
def parseJObjElems : Nat → List Char → Option (List (String × JVal) × List Char)
  | 0, _ => none
  | fuel + 1, l =>
    match skipWs l with
    | '"' :: r =>
      (match parseJStrGo r [] with
       | some (k, r2) =>
         (match skipWs r2 with
          | ':' :: r3 =>
            (match parseJVal fuel r3 with
             | some (v, r4) =>
               (match skipWs r4 with
                | ',' :: r5 => (parseJObjElems fuel r5).map (fun p => ((k, v) :: p.1, p.2))
                | '}' :: r5 => some ([(k, v)], r5)
                | _ => none)
             | none => none)
          | _ => none)
       | none => none)
    | _ => none

end

/-- Model of Python `json.loads`: parse one value and require only
whitespace after it. -/
def json_loads (s : String) : Option JVal :=
  match parseJVal (2 * s.length + 4) s.data with
  | some (v, rest) => if skipWs rest = [] then some v else none
  | none => none

/-! ## Provisioner model — `scripts/create_spot_instance.py`

The Aliyun CLI call performed by `create_instance` is modelled as an oracle
from the varying arguments of the `RunInstances` invocation to the pair
`(exit code, stdout + stderr)` returned by `create_instance`. -/

/-- Model of Python `str(v)` applied to a value obtained from `json.loads`.
Floats are rendered with their plain finite decimal expansion when one
exists (Python switches to exponent notation for tiny magnitudes, and
containers render recursively; the scripts re-parse these strings with
`float()`/`int()`, for which the modelled renderings behave identically in
every verified claim). -/
def pyStrJ : JVal → String
  | JVal.jnull => "None"
  | JVal.jbool true => "True"
  | JVal.jbool false => "False"
  | JVal.jint n => toString n
  | JVal.jstr s => s
  | JVal.jnum q =>
    (match (List.range 41).find? (fun k => (q * (10 : ℚ) ^ k).den = 1) with
     | some 0 => toString (q.num) ++ ".0"
     | some k =>
       let n := (q * (10 : ℚ) ^ k).num
       let sign := if n < 0 then "-" else ""
       let m := n.natAbs
       sign ++ toString (m / 10 ^ k) ++ "." ++ padLeftZeros (toString (m % 10 ^ k)) k
     | none => toString q.num ++ "/" ++ toString q.den)
  | JVal.jarr _ => "[...]"
  | JVal.jobj _ => "\x7b...\x7d"

/-- Python truthiness of a value obtained from `json.loads`. -/
def pyTruthyJ : JVal → Bool
  | JVal.jnull => false
  | JVal.jbool b => b
  | JVal.jint n => n != 0
  | JVal.jnum q => q != 0
  | JVal.jstr s => s != ""
  | JVal.jarr l => !l.isEmpty
  | JVal.jobj l => !l.isEmpty

/-- Does a value equal the Python string `"null"`?  (Python `==` between a
string and a non-string value is `False`.) -/
def jvalIsStrNull : JVal → Bool
  | JVal.jstr s => s == "null"
  | _ => false

/-- Tail of the regex `"InstanceId"\s*:\s*"([^"]+)"` after the literal
`"InstanceId"` has matched: optional whitespace, a colon, optional
whitespace, and a nonempty quoted capture. -/
def matchAfterColon (l : List Char) : Option String :=
  match l.dropWhile isPySpace with
  | ':' :: r =>
    (match r.dropWhile isPySpace with
     | '"' :: r2 =>
       let body := r2.takeWhile (fun c => c ≠ '"')
       let rest := r2.dropWhile (fun c => c ≠ '"')
       if body ≠ [] ∧ rest ≠ [] then some (String.mk body) else none
     | _ => none)
  | _ => none

/-- Leftmost match of `re.search(r'"InstanceId"\s*:\s*"([^"]+)"', ·)`,
returning the capture group. -/
def regexInstanceIdGo : List Char → Option String
  | [] => none
  | l@(_ :: rest) =>
    if listIsPre (("\"InstanceId\"").data) l then
      match matchAfterColon (l.drop 12) with
      | some s => some s
      | none => regexInstanceIdGo rest
    else regexInstanceIdGo rest

/-- Model of `extract_instance_id` (create_spot_instance.py lines 363–381):
try the structured field `InstanceIdSets.InstanceIdSet[0]` of the parsed
JSON response; if the structure is absent fall back to the textual regex.
When the array is nonempty its first element is returned as-is (the Python
function returns it even when it is `null`). -/
def extract_instance_id (response : String) : Option JVal :=
  match json_loads response with
  | some (JVal.jobj kvs) =>
    (match dictGet kvs "InstanceIdSets" with
     | some (JVal.jobj kvs2) =>
       (match dictGet kvs2 "InstanceIdSet" with
        | some (JVal.jarr (x :: _)) => some x
        | _ => (regexInstanceIdGo response.data).map JVal.jstr)
     | _ => (regexInstanceIdGo response.data).map JVal.jstr)
  | _ => (regexInstanceIdGo response.data).map JVal.jstr

/-- The `if instance_id and instance_id != "null"` test of the retry loops
(lines 510 and 601). -/
def usableInstanceId : Option JVal → Bool
  | none => false
  | some v => pyTruthyJ v && !(jvalIsStrNull v)

/-- One parsed record of the candidates file
(`INSTANCE_TYPE|ZONE_ID|VSWITCH_ID|SPOT_PRICE_LIMIT|CPU_CORES`). -/
structure Candidate where
  instance_type : String
  zone_id : String
  vswitch_id : String
  spot_price_limit : String
  cpu_cores : Option Int
deriving DecidableEq

/-- Line loop of `parse_candidates_file` (lines 190–203): strip each line,
skip blank lines and lines with fewer than 4 pipe-separated fields, parse
the fifth field with `int()` when present and nonempty.  `none` models the
uncaught `ValueError` of `int()` on a malformed fifth field. -/
def parse_candidates_lines : List String → Option (List Candidate)
  | [] => some []
  | line :: rest =>
    let l := pyStrip line
    if l = "" then parse_candidates_lines rest
    else
      let parts := splitOnChar '|' l
      if parts.length ≥ 4 then
        let cpu : Option (Option Int) :=
          if parts.length > 4 && parts.getD 4 "" != "" then
            match pyInt (parts.getD 4 "") with
            | some n => some (some n)
            | none => none
          else some none
        match cpu with
        | none => none
        | some cc =>
          (parse_candidates_lines rest).map
            (fun cs =>
              ⟨parts.getD 0 "", parts.getD 1 "", parts.getD 2 "", parts.getD 3 "", cc⟩ :: cs)
      else parse_candidates_lines rest

/-- Model of `parse_candidates_file` (lines 179–205).  The argument is
`none` when `os.path.isfile` is false (yielding `[]`), else the list of the
file's lines; the result is `none` when `int()` raises. -/
def parse_candidates_file : Option (List String) → Option (List Candidate)
  | none => some []
  | some lines => parse_candidates_lines lines

/-- Disk-category priority list (lines 484 and 574). -/
def disk_categories : List String := ["cloud_essd", "cloud_ssd", "cloud_efficiency"]

/-- The unsupported-disk-category test of the retry loops (lines 529 and
618): the specific error code, or a case-insensitive `not support`
substring. -/
def unsupportedDiskPattern (response : String) : Bool :=
  strContains response "InvalidSystemDiskCategory" ||
    strContains (pyLower response) "not support"

/-- Per-attempt success value of the retry loops: the guard
`exit_code == 0 and response` followed by
`instance_id and instance_id != "null"` (lines 508–510 and 599–601). -/
def attempt_success (code : Int) (response : String) : Option JVal :=
  if code = 0 ∧ response ≠ "" then
    if usableInstanceId (extract_instance_id response) then extract_instance_id response
    else none
  else none

/-- Disk-category fallback loop shared by both Provisioner modes
(lines 487–537 in multi-attempt mode, lines 578–628 in single-attempt mode;
the two loops differ only in stderr logging and in the `last_error`
bookkeeping, neither of which is observable in exit code, stdout or the
sequence of creation calls).  `call` maps a disk category to the creation
call's result.  Returns the list of disk categories actually attempted, in
order, and the extracted instance value on success. -/
def disk_category_loop (call : String → Int × String) : List String → List String × Option JVal
  | [] => ([], none)
  | d :: rest =>
    let r := call d
    if r.1 = 0 ∧ r.2 ≠ "" then
      if usableInstanceId (extract_instance_id r.2) then ([d], extract_instance_id r.2)
      else
        let t := disk_category_loop call rest
        (d :: t.1, t.2)
    else
      if unsupportedDiskPattern r.2 then
        let t := disk_category_loop call rest
        (d :: t.1, t.2)
      else ([d], none)

/-- Varying arguments of one `RunInstances` creation call issued by
`create_instance` (lines 288–360); the remaining arguments (region, image,
security group, instance name, key pair, RAM role, user data) are fixed for
the whole run and omitted. -/
structure CreateCall where
  instance_type : String
  vswitch_id : String
  disk_category : String
  spot_strategy : String
  spot_price_limit : String
deriving DecidableEq

/-- Creation call built for one candidate and disk category in multi-attempt
mode (lines 481–505): the spot strategy is `SpotWithPriceLimit` exactly when
the candidate's price-limit field is nonempty. -/
def mk_create_call (c : Candidate) (disk : String) : CreateCall :=
  ⟨c.instance_type, c.vswitch_id, disk,
    (if c.spot_price_limit ≠ "" then "SpotWithPriceLimit" else "SpotAsPriceGo"),
    c.spot_price_limit⟩

/-- Candidate loop of multi-attempt mode (lines 455–547): skip candidates
with an empty VSwitch field, run the disk-category loop for each remaining
candidate, stop at the first success.  Returns all creation calls issued, in
order, and the successful instance value if any. -/
def provision_multi (oracle : CreateCall → Int × String) :
    List Candidate → List CreateCall × Option JVal
  | [] => ([], none)
  | c :: rest =>
    if c.vswitch_id = "" then provision_multi oracle rest
    else
      let t := disk_category_loop (fun d => oracle (mk_create_call c d)) disk_categories
      let calls := t.1.map (mk_create_call c)
      match t.2 with
      | some v => (calls, some v)
      | none =>
        let t2 := provision_multi oracle rest
        (calls ++ t2.1, t2.2)

/-- Observable outcome of a Provisioner run: the creation calls issued, the
lines printed to standard output, and the process exit code. -/
structure ProvisionResult where
  calls : List CreateCall
  stdout_lines : List String
  exit_code : Nat
deriving DecidableEq

/-- Multi-attempt mode end-to-end (lines 449–549): on success print exactly
the instance value and exit 0; otherwise `error_exit` (exit 1, nothing on
stdout). -/
def provision_multi_result (oracle : CreateCall → Int × String)
    (cands : List Candidate) : ProvisionResult :=
  match provision_multi oracle cands with
  | (calls, some v) => ⟨calls, [pyStrJ v], 0⟩
  | (calls, none) => ⟨calls, [], 1⟩

/-- Creation call built in single-attempt mode (lines 563–596). -/
def mk_single_call (instance_type vswitch_id : String)
    (spot_price_limit : Option String) (disk : String) : CreateCall :=
  ⟨instance_type, vswitch_id, disk,
    (if optStrTruthy spot_price_limit then "SpotWithPriceLimit" else "SpotAsPriceGo"),
    spot_price_limit.getD ""⟩

/-- Single-attempt mode (lines 550–634): require a truthy instance type and
VSwitch, then run the same disk-category loop once. -/
def provision_single (oracle : CreateCall → Int × String)
    (instance_type vswitch_id spot_price_limit : Option String) : ProvisionResult :=
  if !optStrTruthy instance_type then ⟨[], [], 1⟩
  else if !optStrTruthy vswitch_id then ⟨[], [], 1⟩
  else
    let mk := mk_single_call (instance_type.getD "") (vswitch_id.getD "") spot_price_limit
    let t := disk_category_loop (fun d => oracle (mk d)) disk_categories
    match t.2 with
    | some v => ⟨t.1.map mk, [pyStrJ v], 0⟩
    | none => ⟨t.1.map mk, [], 1⟩

/-- Model of `get_vswitch_id` in create_spot_instance.py (lines 168–176):
a zone id ending in `-c` for a lowercase letter `c` resolves to the
environment variable `ALIYUN_VSWITCH_ID_<C>`; anything else resolves to
`None`.  `env` models `os.environ.get`. -/
def get_vswitch_id_prov (env : String → Option String) (zone_id : String) : Option String :=
  match zone_id.data.reverse with
  | c :: '-' :: _ =>
    if 'a' ≤ c ∧ c ≤ 'z' then env ("ALIYUN_VSWITCH_ID_" ++ String.mk [c.toUpper])
    else none
  | _ => none

/-! ## Selector model — `scripts/select_instance.py`

The spot-instance-advisor binary is modelled as an oracle from the varying
query arguments to `(exit code, stdout)`. -/

/-- Suffix test on strings (Python `str.endswith`). -/
def strEndsWith (s suffixStr : String) : Bool :=
  listIsPre (suffixStr.data.reverse) s.data.reverse

/-- Model of `parse_cpu_from_instance_type` (select_instance.py lines
31–45): the regex `\.(\d+)xlarge$` (the maximal trailing digit run before
`xlarge`, preceded by a dot) yields 4·N; otherwise the suffixes `.xlarge`,
`.large`, `.medium` yield 4, 2, 2; anything else is undetermined. -/
def parse_cpu_from_instance_type (instance_type : String) : Option Int :=
  let rev := instance_type.data.reverse
  let matched : Option Int :=
    if listIsPre (("egralx").data) rev then
      let ds := (rev.drop 6).takeWhile Char.isDigit
      if ds ≠ [] ∧ ((rev.drop 6).drop ds.length).head? = some '.' then
        some ((digitsToNat ds.reverse : Int) * 4)
      else none
    else none
  match matched with
  | some n => some n
  | none =>
    if strEndsWith instance_type ".xlarge" then some 4
    else if strEndsWith instance_type ".large" then some 2
    else if strEndsWith instance_type ".medium" then some 2
    else none

/-- Model of `get_field_value` (lines 48–54) applied to one advisor offer:
return `str(value)` for the first listed key present in the object, `None`
when that value is JSON null, and keep trying later keys only when the key
is absent.  Non-object offers have no keys.  (A JSON-string offer would make
the Python `in` test a substring test and can raise; no claim exercises
non-object offers.) -/
def get_field_value (obj : JVal) : List String → Option String
  | [] => none
  | k :: rest =>
    match obj with
    | JVal.jobj kvs =>
      if kvs.any (fun p => p.1 == k) then
        match dictGet kvs k with
        | some JVal.jnull => none
        | some v => some (pyStrJ v)
        | none => none
      else get_field_value (JVal.jobj kvs) rest
    | _ => get_field_value obj rest

/-- Python `int(float(s))`: truncation toward zero of the exact rational. -/
def pyIntTrunc (q : ℚ) : Int :=
  if 0 ≤ q then ⌊q⌋ else -⌊-q⌋

/-- Outcome of one iteration of the offer loop in `filter_instances`:
`tyerr` is the uncaught `TypeError` raised at the line-163
minimum-requirement comparison (it kills the whole Selector run), `skip` is
`continue`, and `keep` appends a candidate. -/
inductive FilterStep where
  | tyerr
  | skip
  | keep (c : String × String × ℚ × Int)

/-- Per-offer step of `filter_instances` (lines 113–180), translated from
the source including its crash path: read the fields; a truthy CPU field is
`int()`-converted (`ValueError` caught to `None`), an absent or null field
is `None`, but a present-but-EMPTY CPU string is falsy and left
unconverted — it is not `None`, so name derivation is skipped and the
string reaches `cpu_cores < min_cpu`, raising an uncaught `TypeError`.
Memory behaves the same way, except that Python's `or` short-circuits: an
unconverted empty memory string crashes only when `cpu < min_cpu` is false.
Otherwise: derive CPU from the type name when the field gave `None` (skip
with a diagnostic if that fails too), estimate memory from the architecture
ratio, skip offers that miss a required field or sit below the minimums,
and parse the price (`ValueError` skips). -/
def filter_one_src (inst : JVal) (min_cpu min_mem : Int) (arch : String) : FilterStep :=
  let instance_type := get_field_value inst ["instanceTypeId", "instance_type", "InstanceType"]
  let zone_id := get_field_value inst ["zoneId", "zone_id", "ZoneId"]
  let price_per_core :=
    get_field_value inst ["pricePerCore", "price_per_core", "PricePerCore", "price", "Price"]
  let cpu_cores0 := get_field_value inst ["cpuCoreCount", "cpu_cores", "CpuCores", "cores", "Cores"]
  let memory_size0 := get_field_value inst ["memorySize", "memory_size", "MemorySize", "memory", "Memory"]
  if !optStrTruthy instance_type || !optStrTruthy zone_id || !optStrTruthy price_per_core then
    FilterStep.skip
  else
    let cpuAfter : Option (Option Int) :=
      match cpu_cores0 with
      | some s => if s ≠ "" then some (pyInt s) else none
      | none => some none
    match cpuAfter with
    | none => FilterStep.tyerr
    | some copt =>
      let cpu2 : Option Int :=
        match copt with
        | some n => some n
        | none => parse_cpu_from_instance_type (instance_type.getD "")
      match cpu2 with
      | none => FilterStep.skip
      | some cpu =>
        let memAfter : Option (Option Int) :=
          match memory_size0 with
          | some s => if s ≠ "" then some ((pyFloat s).map pyIntTrunc) else none
          | none => some none
        match memAfter with
        | none =>
          if cpu < min_cpu then FilterStep.skip else FilterStep.tyerr
        | some mopt =>
          let mem : Int :=
            match mopt with
            | some m => m
            | none => if arch = "amd64" then cpu else if arch = "arm64" then cpu * 2 else cpu
          if cpu < min_cpu ∨ mem < min_mem then FilterStep.skip
          else
            match pyFloat (price_per_core.getD "") with
            | none => FilterStep.skip
            | some p => FilterStep.keep (instance_type.getD "", zone_id.getD "", p, cpu)

/-- The kept-candidate projection of `filter_one_src`: it forgets the
distinction between the `continue` path and the `TypeError` crash (which
ends the run keeping nothing), so it is used only for statements about
which candidates can ever be kept and how many — the crash-aware loop is
`filter_instances_src_go`. -/
def filter_one (inst : JVal) (min_cpu min_mem : Int) (arch : String) :
    Option (String × String × ℚ × Int) :=
  match filter_one_src inst min_cpu min_mem arch with
  | FilterStep.keep c => some c
  | _ => none

/-- Offer loop of `filter_instances` with the `len(candidates) >=
max_candidates` break (appends, then breaks); `cnt` is the number of
candidates accumulated so far. -/
def filter_instances_go (min_cpu min_mem : Int) (arch : String) (max_candidates : Nat) :
    List JVal → Nat → List (String × String × ℚ × Int)
  | [], _ => []
  | inst :: rest, cnt =>
    match filter_one inst min_cpu min_mem arch with
    | none => filter_instances_go min_cpu min_mem arch max_candidates rest cnt
    | some cand =>
      if cnt + 1 ≥ max_candidates then [cand]
      else cand :: filter_instances_go min_cpu min_mem arch max_candidates rest (cnt + 1)

/-- Model of `filter_instances` (lines 103–182) through the kept-candidate
projection; sound for the count and order of whatever the loop can keep. -/
def filter_instances (instances : List JVal) (min_cpu min_mem : Int) (arch : String)
    (max_candidates : Nat) : List (String × String × ℚ × Int) :=
  filter_instances_go min_cpu min_mem arch max_candidates instances 0

/-- Crash-aware offer loop of `filter_instances`: `none` is the uncaught
`TypeError` propagating out of the loop (the Selector dies with a
traceback and returns no candidate list at all). -/
def filter_instances_src_go (min_cpu min_mem : Int) (arch : String) (max_candidates : Nat) :
    List JVal → Nat → Option (List (String × String × ℚ × Int))
  | [], _ => some []
  | inst :: rest, cnt =>
    match filter_one_src inst min_cpu min_mem arch with
    | FilterStep.tyerr => none
    | FilterStep.skip => filter_instances_src_go min_cpu min_mem arch max_candidates rest cnt
    | FilterStep.keep cand =>
      if cnt + 1 ≥ max_candidates then some [cand]
      else (filter_instances_src_go min_cpu min_mem arch max_candidates rest (cnt + 1)).map
        (fun l => cand :: l)

/-- Crash-aware model of `filter_instances` (lines 103–182). -/
def filter_instances_src (instances : List JVal) (min_cpu min_mem : Int) (arch : String)
    (max_candidates : Nat) : Option (List (String × String × ℚ × Int)) :=
  filter_instances_src_go min_cpu min_mem arch max_candidates instances 0

/-- Model of `get_vswitch_id` in select_instance.py (lines 185–194);
textually identical logic to the Provisioner's copy. -/
def get_vswitch_id_sel (env : String → Option String) (zone_id : String) : Option String :=
  match zone_id.data.reverse with
  | c :: '-' :: _ =>
    if 'a' ≤ c ∧ c ≤ 'z' then env ("ALIYUN_VSWITCH_ID_" ++ String.mk [c.toUpper])
    else none
  | _ => none

/-- One advisor query strategy: (cpu, memory, exact-match flag, label). -/
abbrev Strategy := Int × Int × Bool × String

/-- Model of the strategy-list construction (lines 266–285). -/
def build_query_strategies (arch : String) (min_cpu max_cpu : Int) : List Strategy :=
  if arch = "amd64" then
    [(min_cpu, min_cpu, true, "1:1")] ++
      (if min_cpu ≤ 32 then [(min_cpu, min_cpu * 2, true, "1:2")] else []) ++
      (if min_cpu < 16 then [((16 : Int), (16 : Int), true, "1:1")] else []) ++
      (if min_cpu < 16 then [((16 : Int), (32 : Int), true, "1:2")] else []) ++
      [(min_cpu, max_cpu, false, "range")]
  else
    [(min_cpu, min_cpu * 2, true, "1:2"), (min_cpu, max_cpu, false, "range")]

/-- Varying arguments of one advisor invocation, after `query_spot_instances`
has applied its own `exact_match` overrides (lines 70–82). -/
structure QueryArgs where
  min_cpu : Int
  max_cpu : Int
  min_mem : Int
  max_mem : Int
  arch : String
deriving DecidableEq

/-- Model of `query_spot_instances` (lines 57–100): build the advisor
arguments (`maxcpu`/`maxmem` collapse onto the minima under `exact_match`),
and return the parsed offers only when the process exits 0, prints a
nonblank stdout, and that stdout is a nonempty JSON array. -/
def query_spot_instances (run : QueryArgs → Int × String)
    (min_cpu max_cpu min_mem max_mem : Int) (arch : String) (exact_match : Bool) :
    Option (List JVal) :=
  let args : QueryArgs :=
    ⟨min_cpu, if exact_match then min_cpu else max_cpu, min_mem,
      if exact_match then min_mem else max_mem, arch⟩
  let r := run args
  if r.1 ≠ 0 then none
  else if pyStrip r.2 = "" then none
  else
    match json_loads r.2 with
    | some (JVal.jarr l) => if l.isEmpty then none else some l
    | _ => none

/-- Strategy loop of the Selector's main (lines 288–324): query each
strategy in order with the call-site argument selection of lines 305–316,
stop at the first truthy result.  Returns the strategies actually queried,
in order, and the first result. -/
def select_loop (run : QueryArgs → Int × String) (min_mem max_mem max_cpu : Int)
    (arch_param : String) : List Strategy → List Strategy × Option (List JVal)
  | [] => ([], none)
  | (c, m, exact, desc) :: rest =>
    let res := query_spot_instances run c (if exact then c else max_cpu)
      (if exact then m else min_mem) (if exact then m else max_mem) arch_param exact
    match res with
    | some l =>
      if l.isEmpty then
        let t := select_loop run min_mem max_mem max_cpu arch_param rest
        ((c, m, exact, desc) :: t.1, t.2)
      else ([(c, m, exact, desc)], some l)
    | none =>
      let t := select_loop run min_mem max_mem max_cpu arch_param rest
      ((c, m, exact, desc) :: t.1, t.2)

/-- Selector exit status after the strategy loop (line 326–327): exit 1 when
every strategy failed. -/
def selector_strategy_exit (outcome : Option (List JVal)) : Nat :=
  match outcome with
  | none => 1
  | some _ => 0

/-- One line of the candidates file (line 394–396):
`INSTANCE_TYPE|ZONE_ID|VSWITCH_ID|SPOT_PRICE_LIMIT|CPU_CORES` with the
price limit `price_per_core * cpu_cores * 1.2` formatted to 4 decimals. -/
def candidate_line (t z v : String) (p : ℚ) (cc : Int) : String :=
  t ++ "|" ++ z ++ "|" ++ v ++ "|" ++ formatFixed4 (p * (cc : ℚ) * (6 / 5)) ++ "|" ++ toString cc

/-- Candidate-file writing loop (lines 377–397): skip candidates whose zone
resolves to no VSwitch (or an empty one), write one line per remaining
candidate in order. -/
def write_candidates_lines (env : String → Option String)
    (cands : List (String × String × ℚ × Int)) : List String :=
  cands.filterMap (fun r =>
    match get_vswitch_id_sel env r.2.1 with
    | some v => if v = "" then none else some (candidate_line r.1 r.2.1 v r.2.2.1 r.2.2.2)
    | none => none)

/-! ## UserData writer model — `scripts/write_user_data.py`

Byte sequences are `List Nat` with every element below 256.  UTF-8
encoding/decoding model Python's `str.encode("utf-8")` and
`bytes.decode("utf-8")` (the decoder is strict: truncated sequences,
overlong forms, surrogates and out-of-range values are rejected). -/

/-- UTF-8 encoding of a single code point. -/
def utf8EncodeChar (n : Nat) : List Nat :=
  if n < 0x80 then [n]
  else if n < 0x800 then [0xC0 + n / 64, 0x80 + n % 64]
  else if n < 0x10000 then [0xE0 + n / 4096, 0x80 + n / 64 % 64, 0x80 + n % 64]
  else [0xF0 + n / 262144, 0x80 + n / 4096 % 64, 0x80 + n / 64 % 64, 0x80 + n % 64]

/-- Model of `s.encode("utf-8")`. -/
def utf8Encode (s : String) : List Nat :=
  (s.data.map (fun c => utf8EncodeChar c.toNat)).flatten

/-- Strict UTF-8 decoding of one code point from the front of a byte list. -/
def utf8DecodeChar : List Nat → Option (Char × List Nat)
  | [] => none
  | b1 :: rest =>
    if b1 < 0x80 then some (Char.ofNat b1, rest)
    else if b1 < 0xC2 then none
    else if b1 < 0xE0 then
      match rest with
      | b2 :: r =>
        if 0x80 ≤ b2 ∧ b2 < 0xC0 then some (Char.ofNat ((b1 - 0xC0) * 64 + (b2 - 0x80)), r)
        else none
      | [] => none
    else if b1 < 0xF0 then
      match rest with
      | b2 :: b3 :: r =>
        let lo := if b1 = 0xE0 then 0xA0 else 0x80
        let hi := if b1 = 0xED then 0xA0 else 0xC0
        if lo ≤ b2 ∧ b2 < hi ∧ 0x80 ≤ b3 ∧ b3 < 0xC0 then
          some (Char.ofNat ((b1 - 0xE0) * 4096 + (b2 - 0x80) * 64 + (b3 - 0x80)), r)
        else none
      | _ => none
    else if b1 < 0xF5 then
      match rest with
      | b2 :: b3 :: b4 :: r =>
        let lo := if b1 = 0xF0 then 0x90 else 0x80
        let hi := if b1 = 0xF4 then 0x90 else 0xC0
        if lo ≤ b2 ∧ b2 < hi ∧ 0x80 ≤ b3 ∧ b3 < 0xC0 ∧ 0x80 ≤ b4 ∧ b4 < 0xC0 then
          some (Char.ofNat
            ((b1 - 0xF0) * 262144 + (b2 - 0x80) * 4096 + (b3 - 0x80) * 64 + (b4 - 0x80)), r)
        else none
      | _ => none
    else none

/-- Fuel-indexed decoding loop. -/
def utf8DecodeLoop : Nat → List Nat → Option (List Char)
  | _, [] => some []
  | 0, _ :: _ => none
  | fuel + 1, bs =>
    match utf8DecodeChar bs with
    | some (c, rest) => (utf8DecodeLoop fuel rest).map (fun l => c :: l)
    | none => none

/-- Model of `bytes.decode("utf-8")`; `none` models `UnicodeDecodeError`. -/
def utf8Decode (bs : List Nat) : Option String :=
  (utf8DecodeLoop bs.length bs).map String.mk

/-- Standard base64 alphabet. -/
def b64Table : List Char :=
  ("ABCDEFGHIJKLMNOPQRSTUVWXYZabcdefghijklmnopqrstuvwxyz0123456789+/").data

/-- Character for a sextet value. -/
def b64Char (n : Nat) : Char := b64Table.getD n 'A'

/-- Index scan helper for `b64Index`. -/
def b64IndexGo : List Char → Nat → Char → Option Nat
  | [], _, _ => none
  | c :: rest, i, target => if c = target then some i else b64IndexGo rest (i + 1) target

/-- Sextet value of an alphabet character. -/
def b64Index (c : Char) : Option Nat := b64IndexGo b64Table 0 c

/-- Model of `base64.b64encode` on a byte list (standard alphabet, padded). -/
def b64EncodeGroups : List Nat → List Char
  | [] => []
  | [a] => [b64Char (a / 4), b64Char (a % 4 * 16), '=', '=']
  | [a, b] => [b64Char (a / 4), b64Char (a % 4 * 16 + b / 16), b64Char (b % 16 * 4), '=']
  | a :: b :: c :: rest =>
    b64Char (a / 4) :: b64Char (a % 4 * 16 + b / 16) :: b64Char (b % 16 * 4 + c / 64) ::
      b64Char (c % 64) :: b64EncodeGroups rest

/-- `base64.b64encode(bs).decode("ascii")`. -/
def b64encode (bs : List Nat) : String := String.mk (b64EncodeGroups bs)

/-- Membership in the base64 alphabet. -/
def isB64Alphabet (c : Char) : Bool := (b64Index c).isSome

/-- Decode filtered base64 characters in groups of four, with `=` padding
allowed only at the very end. -/
def b64DecodeGroups : List Char → Option (List Nat)
  | [] => some []
  | c1 :: c2 :: c3 :: c4 :: rest =>
    (match b64Index c1, b64Index c2 with
     | some i1, some i2 =>
       if c3 = '=' then
         if c4 = '=' ∧ rest = [] then some [i1 * 4 + i2 / 16] else none
       else
         (match b64Index c3 with
          | some i3 =>
            if c4 = '=' then
              if rest = [] then some [i1 * 4 + i2 / 16, i2 % 16 * 16 + i3 / 4] else none
            else
              (match b64Index c4 with
               | some i4 =>
                 (b64DecodeGroups rest).map
                   (fun bs =>
                     (i1 * 4 + i2 / 16) :: (i2 % 16 * 16 + i3 / 4) :: (i3 % 4 * 64 + i4) :: bs)
               | none => none)
          | none => none)
     | _, _ => none)
  | _ => none

/-- Model of `base64.b64decode` with its default validation: characters
outside the alphabet (and stray `=`) are discarded, then the remainder must
decode in groups of four; `none` models `binascii.Error`.  (Exotic
placements of `=` accepted by CPython's `a2b_base64` are not modelled; no
claim exercises them.) -/
def b64decode (s : String) : Option (List Nat) :=
  b64DecodeGroups (s.data.filter (fun c => isB64Alphabet c || c = '='))

/-- Observable outcome of the UserData writer: exit code and the text
written to the destination file (the file's bytes are the UTF-8 encoding of
that text). -/
structure WriterResult where
  exit_code : Nat
  written : Option String
deriving DecidableEq

/-- Model of `main` in write_user_data.py (lines 14–53): require a
destination argument; take the payload from `USER_DATA_B64`, else from
stripped stdin; fail on an empty payload, a base64 error or a UTF-8 error;
otherwise write the decoded text.  (An `OSError` from the final write — a
full disk, say — also exits 1; file-system failure is outside the model.) -/
def write_user_data_main (argv : List String) (env_user_data_b64 : Option String)
    (stdin : String) : WriterResult :=
  if argv.length < 2 then ⟨1, none⟩
  else
    let b64_env := env_user_data_b64.getD ""
    let b64 := if b64_env ≠ "" then b64_env else pyStrip stdin
    if b64 = "" then ⟨1, none⟩
    else
      match b64decode b64 with
      | none => ⟨1, none⟩
      | some bytes =>
        match utf8Decode bytes with
        | none => ⟨1, none⟩
        | some content => ⟨0, some content⟩

/-! ## Concrete instances and claim-side definitions used by the theorems -/

/-- Query issued for one strategy by the Selector's loop, with the call-site
argument selection of lines 305–316. -/
def strat_query (run : QueryArgs → Int × String) (min_mem max_mem max_cpu : Int)
    (arch_param : String) (s : Strategy) : Option (List JVal) :=
  query_spot_instances run s.1 (if s.2.2.1 then s.1 else max_cpu)
    (if s.2.2.1 then s.2.1 else min_mem) (if s.2.2.1 then s.2.1 else max_mem)
    arch_param s.2.2.1

/-- Records of a candidates file as claim C10 describes them: one record per
non-blank line with at least 4 pipe-separated fields, in file order, the
fifth field parsed as an integer when present and nonempty. -/
def claimed_candidate_records (lines : List String) : List Candidate :=
  lines.filterMap (fun line =>
    let l := pyStrip line
    if l = "" then none
    else
      let parts := splitOnChar '|' l
      if parts.length ≥ 4 then
        some ⟨parts.getD 0 "", parts.getD 1 "", parts.getD 2 "", parts.getD 3 "",
          (if parts.length > 4 && parts.getD 4 "" != "" then pyInt (parts.getD 4 "") else none)⟩
      else none)

/-- Candidates file of claim C1's scenario: three entries, all with a
VSwitch. -/
def c1_candidates_file : List String :=
  ["ecs.a1.large|cn-x-a|vsw-aaa|0.1000|2",
   "ecs.b2.large|cn-x-b|vsw-bbb|0.2000|2",
   "ecs.c3.large|cn-x-c|vsw-ccc|0.3000|2"]

/-- An unsupported-disk-category failure response. -/
def c1_unsupported_response : String :=
  "Error: InvalidSystemDiskCategory. The specified disk category is not supported."

/-- Successful creation response carrying the instance id `i-0c1`. -/
def c1_success_response : String :=
  "\x7b\"InstanceIdSets\":\x7b\"InstanceIdSet\":[\"i-0c1\"]\x7d\x7d"

/-- Creation-call oracle of claim C1's scenario: entries 1 and 2 fail with
the unsupported-disk-category response for every category; entry 3 fails on
the first category and succeeds from the second on. -/
def c1_oracle : CreateCall → Int × String := fun call =>
  if call.instance_type = "ecs.c3.large" then
    (if call.disk_category = "cloud_essd" then (1, c1_unsupported_response)
     else (0, c1_success_response))
  else (1, c1_unsupported_response)

/-- Oracle refuting claim C2: the first creation call returns exit code 0
with the non-empty response `{}` (no extractable id, no error pattern), the
later ones succeed. -/
def c2_call : String → Int × String := fun d =>
  if d = "cloud_essd" then (0, "\x7b\x7d")
  else (0, "\x7b\"InstanceIdSets\":\x7b\"InstanceIdSet\":[\"i-2nd\"]\x7d\x7d")

/-- Response whose structured field holds the literal string `"null"`. -/
def c3_null_response : String :=
  "\x7b\"InstanceIdSets\":\x7b\"InstanceIdSet\":[\"null\"]\x7d\x7d"

/-- A candidate with a VSwitch, for claim C3's counterexample. -/
def c3_candidate : Candidate :=
  ⟨"ecs.g7.large", "cn-x-a", "vsw-3", "", none⟩

/-- Oracle refuting claim C9: the first creation call returns exit code 0
with an empty response, the later ones succeed. -/
def c9_call : String → Int × String := fun d =>
  if d = "cloud_essd" then (0, "")
  else (0, "\x7b\"InstanceIdSets\":\x7b\"InstanceIdSet\":[\"i-9th\"]\x7d\x7d")

/-- Advisor offer with positive price `0.000001` per core, for claim C5's
counterexample. -/
def c5_offer : JVal :=
  JVal.jobj [("instanceTypeId", JVal.jstr "ecs.x.2xlarge"),
             ("zoneId", JVal.jstr "cn-test-a"),
             ("pricePerCore", JVal.jstr "0.000001")]

/-- Environment for claim C5's counterexample: zone suffix `a` has a
VSwitch. -/
def c5_env : String → Option String := fun k =>
  if k = "ALIYUN_VSWITCH_ID_A" then some "vsw-x" else none

/-- Environment for claim C7's witness. -/
def c7_env : String → Option String := fun k =>
  if k = "ALIYUN_VSWITCH_ID_K" then some "vsw-77" else none

/-- Candidates file for claim C10's witness: blank lines and short lines are
skipped, a missing or empty fifth field gives no core count. -/
def c10_witness_file : List String :=
  ["a|b|c|d|5", "", "x|y", "p|q|r|s", "  t|u|v|w| 42 ", "e|f|g|h||extra", "junk"]

/-- Offer with no CPU field and an unrecognized type-name suffix, for claim
C6's witness. -/
def c6_offer : JVal :=
  JVal.jobj [("instanceTypeId", JVal.jstr "ecs.bigmem"), ("zoneId", JVal.jstr "cn-a-b"),
             ("pricePerCore", JVal.jstr "0.5")]

/-- Offer with an unrecognized type-name suffix whose CPU field is a
present-but-empty string, for claim C6's counterexample: the empty string
is left unconverted and crashes the Selector at the minimum-requirement
comparison. -/
def c6_crash_offer : JVal :=
  JVal.jobj [("instanceTypeId", JVal.jstr "ecs.bigmem"), ("zoneId", JVal.jstr "cn-a-b"),
             ("pricePerCore", JVal.jstr "0.5"), ("cpuCoreCount", JVal.jstr "")]

/-! ## Claim theorems -/

/-- C1: in multi-attempt mode, with a 3-entry candidate file where entries 1
and 2 fail with an unsupported-disk-category response for all 3 disk
categories and entry 3 fails on the first category and succeeds on the
second, the Provisioner emits entry 3's instance id on stdout, exits 0, and
issues exactly 8 creation calls: 3 for entry 1, 3 for entry 2, 2 for
entry 3. -/
theorem C1_multi_attempt_eight_calls :
    ((parse_candidates_file (some c1_candidates_file)).map
        (fun cs =>
          let r := provision_multi_result c1_oracle cs
          (r.stdout_lines, r.exit_code, r.calls.length,
            r.calls.countP (fun cl => cl.instance_type == "ecs.a1.large"),
            r.calls.countP (fun cl => cl.instance_type == "ecs.b2.large"),
            r.calls.countP (fun cl => cl.instance_type == "ecs.c3.large")))) =
      some (["i-0c1"], 0, 8, 3, 3, 2) := by
  rfl

/-- C2 counterexample: a creation call that returns exit code 0 with the
non-empty response `{}` is not a success and its response matches neither
unsupported-disk-category pattern, yet the loop still tries the next disk
category for the same candidate (and succeeds there), contradicting the
claim that every such failure aborts the candidate's disk-category loop. -/
theorem C2_counterexample :
    c2_call "cloud_essd" = (0, "\x7b\x7d") ∧
    usableInstanceId (extract_instance_id "\x7b\x7d") = false ∧
    unsupportedDiskPattern "\x7b\x7d" = false ∧
    (disk_category_loop c2_call disk_categories).1 = ["cloud_essd", "cloud_ssd"] ∧
    ¬ (disk_category_loop c2_call disk_categories).1 = ["cloud_essd"] := by
  refine ⟨rfl, rfl, rfl, rfl, ?_⟩
  decide

/-- C3 counterexample: the response whose structured field holds the
literal string `"null"` has a parseable instance identifier and exit code 0,
yet the attempt is not a success: the Provisioner exhausts all disk
categories, prints nothing, and exits 1. -/
theorem C3_counterexample :
    extract_instance_id c3_null_response = some (JVal.jstr "null") ∧
    attempt_success 0 c3_null_response = none ∧
    (provision_multi_result (fun _ => (0, c3_null_response)) [c3_candidate]).stdout_lines = [] ∧
    (provision_multi_result (fun _ => (0, c3_null_response)) [c3_candidate]).exit_code = 1 ∧
    (provision_multi_result (fun _ => (0, c3_null_response)) [c3_candidate]).calls.length = 3 := by
  exact ⟨rfl, rfl, rfl, rfl, rfl⟩

/-- C9 counterexample: a creation call that returns exit code 0 with an
empty response (so no instance identifier is extractable) does not advance
to the next disk category: the pattern check on the empty response fails and
the candidate's remaining disk categories are aborted, even though the next
category would have succeeded. -/
theorem C9_counterexample :
    c9_call "cloud_essd" = (0, "") ∧
    extract_instance_id "" = none ∧
    usableInstanceId (extract_instance_id (c9_call "cloud_ssd").2) = true ∧
    disk_category_loop c9_call disk_categories = (["cloud_essd"], none) := by
  refine ⟨rfl, rfl, rfl, ?_⟩
  rfl

/-- C10 counterexample: a non-blank line with at least 4 pipe-separated
fields whose fifth field is present, nonempty and not an integer literal
makes `parse_candidates_file` raise `ValueError` (modelled `none`) instead
of returning the line's record. -/
theorem C10_counterexample :
    pyStrip "a|b|c|d|x" ≠ "" ∧
    (splitOnChar '|' "a|b|c|d|x").length ≥ 4 ∧
    parse_candidates_file (some ["a|b|c|d|x"]) = none := by
  refine ⟨?_, ?_, rfl⟩ <;> decide

/-- Helper: a usable extracted id is in particular present. -/
theorem usable_isSome (o : Option JVal) (h : usableInstanceId o = true) : o.isSome = true := by
  cases o with
  | none => simp [usableInstanceId] at h
  | some v => rfl

/-- C2 (amended): in the retry loop shared by both Provisioner modes, a
creation-call result with a nonzero exit code or an empty response advances
to the next disk category when the response matches the
unsupported-disk-category pattern, and otherwise aborts the candidate's
disk-category loop; in multi-attempt mode an aborted or exhausted candidate
is followed by the next candidate.  (The claim's dichotomy does not cover
exit-code-0 results with a non-empty response and no usable id, which also
advance — see the counterexample.) -/
theorem C2_retry_dichotomy
    (call : String → Int × String) (d : String) (rest : List String)
    (h : (call d).1 ≠ 0 ∨ (call d).2 = "") :
    (unsupportedDiskPattern (call d).2 = true →
      disk_category_loop call (d :: rest) =
        (d :: (disk_category_loop call rest).1, (disk_category_loop call rest).2)) ∧
    (unsupportedDiskPattern (call d).2 = false →
      disk_category_loop call (d :: rest) = ([d], none)) ∧
    (∀ (oracle : CreateCall → Int × String) (c : Candidate) (others : List Candidate),
      c.vswitch_id ≠ "" →
      (disk_category_loop (fun d2 => oracle (mk_create_call c d2)) disk_categories).2 = none →
      provision_multi oracle (c :: others) =
        ((disk_category_loop (fun d2 => oracle (mk_create_call c d2)) disk_categories).1.map
            (mk_create_call c) ++ (provision_multi oracle others).1,
          (provision_multi oracle others).2)) := by
  have hcond : ¬ ((call d).1 = 0 ∧ (call d).2 ≠ "") := by
    rcases h with h | h
    · exact fun hc => h hc.1
    · exact fun hc => hc.2 h
  refine ⟨?_, ?_, ?_⟩
  · intro hp
    simp only [disk_category_loop, if_neg hcond, hp, if_true]
  · intro hp
    simp [disk_category_loop, if_neg hcond, hp]
  · intro oracle c others hvsw hloop
    simp only [provision_multi, if_neg hvsw]
    rw [hloop]

/-- Witness for C2's amended dichotomy at concrete inputs: a non-pattern
failure stops after the first category; a pattern failure falls through to
the rest of the category list. -/
theorem C2_retry_dichotomy_witness :
    disk_category_loop (fun _ => ((1 : Int), "quota exceeded")) ["cloud_essd", "cloud_ssd"] =
      (["cloud_essd"], none) ∧
    disk_category_loop (fun _ => ((1 : Int), "zone does Not Support this")) ["cloud_essd"] =
      ("cloud_essd" ::
          (disk_category_loop (fun _ => ((1 : Int), "zone does Not Support this")) []).1,
        (disk_category_loop (fun _ => ((1 : Int), "zone does Not Support this")) []).2) := by
  constructor
  · exact (C2_retry_dichotomy _ "cloud_essd" ["cloud_ssd"] (Or.inl (by decide))).2.1 (by decide)
  · exact (C2_retry_dichotomy _ "cloud_essd" [] (Or.inl (by decide))).1 (by decide)

/-- C9 (amended): a creation call returning exit code 0 with a *non-empty*
response but no usable instance id (in particular the literal `"null"` or an
absent id) advances to the next disk category without consulting the
unsupported-disk-category pattern and without aborting; an exit-code-0
*empty* response instead falls into the error branch — see the
counterexample. -/
theorem C9_zero_exit_no_id
    (call : String → Int × String) (d : String) (rest : List String)
    (h0 : (call d).1 = 0) (h1 : (call d).2 ≠ "")
    (h2 : usableInstanceId (extract_instance_id (call d).2) = false) :
    disk_category_loop call (d :: rest) =
      (d :: (disk_category_loop call rest).1, (disk_category_loop call rest).2) ∧
    usableInstanceId none = false ∧
    usableInstanceId (some (JVal.jstr "null")) = false := by
  refine ⟨?_, rfl, rfl⟩
  simp [disk_category_loop, if_pos (And.intro h0 h1), h2]

/-- Witness for C9's amended statement: an exit-code-0 response with JSON
but no instance id advances past the first category. -/
theorem C9_zero_exit_no_id_witness :
    disk_category_loop (fun _ => ((0 : Int), "\x7b\"RequestId\":\"r\"\x7d"))
        ["cloud_essd", "cloud_ssd"] =
      ("cloud_essd" ::
          (disk_category_loop (fun _ => ((0 : Int), "\x7b\"RequestId\":\"r\"\x7d"))
              ["cloud_ssd"]).1,
        (disk_category_loop (fun _ => ((0 : Int), "\x7b\"RequestId\":\"r\"\x7d"))
            ["cloud_ssd"]).2) :=
  (C9_zero_exit_no_id (fun _ => ((0 : Int), "\x7b\"RequestId\":\"r\"\x7d"))
    "cloud_essd" ["cloud_ssd"] rfl (by decide) rfl).1

/-- C3 (amended): a creation attempt is a success iff the call exits 0 with
a non-empty response whose extracted identifier is truthy and differs from
the literal `"null"` (the extraction tries the structured field first, then
the textual pattern).  On the first success the loops stop immediately — no
further disk categories or candidates — and the Provisioner prints exactly
the one identifier line on stdout and exits 0; on overall failure stdout is
empty and the exit code is 1, in both modes. -/
theorem C3_success_contract :
    (∀ (code : Int) (resp : String),
      (attempt_success code resp).isSome = true ↔
        code = 0 ∧ resp ≠ "" ∧ usableInstanceId (extract_instance_id resp) = true) ∧
    (∀ (call : String → Int × String) (d : String) (rest : List String) (v : JVal),
      attempt_success (call d).1 (call d).2 = some v →
      disk_category_loop call (d :: rest) = ([d], some v)) ∧
    (∀ (oracle : CreateCall → Int × String) (c : Candidate) (others : List Candidate) (v : JVal),
      c.vswitch_id ≠ "" →
      (disk_category_loop (fun d => oracle (mk_create_call c d)) disk_categories).2 = some v →
      provision_multi oracle (c :: others) =
        ((disk_category_loop (fun d => oracle (mk_create_call c d)) disk_categories).1.map
            (mk_create_call c), some v)) ∧
    (∀ (oracle : CreateCall → Int × String) (cands : List Candidate) (v : JVal),
      (provision_multi oracle cands).2 = some v →
      (provision_multi_result oracle cands).stdout_lines = [pyStrJ v] ∧
        (provision_multi_result oracle cands).exit_code = 0) ∧
    (∀ (oracle : CreateCall → Int × String) (cands : List Candidate),
      (provision_multi_result oracle cands).exit_code = 0 ∧
          (provision_multi_result oracle cands).stdout_lines.length = 1 ∨
        (provision_multi_result oracle cands).exit_code = 1 ∧
          (provision_multi_result oracle cands).stdout_lines = []) ∧
    (∀ (oracle : CreateCall → Int × String) (it vs spl : Option String),
      (provision_single oracle it vs spl).exit_code = 0 ∧
          (provision_single oracle it vs spl).stdout_lines.length = 1 ∨
        (provision_single oracle it vs spl).exit_code = 1 ∧
          (provision_single oracle it vs spl).stdout_lines = []) := by
  refine ⟨?_, ?_, ?_, ?_, ?_, ?_⟩
  · intro code resp
    by_cases hc : code = 0 ∧ resp ≠ ""
    · by_cases hu : usableInstanceId (extract_instance_id resp) = true
      · simp [attempt_success, hc, hu, usable_isSome _ hu]
      · rw [Bool.not_eq_true] at hu
        simp [attempt_success, hc, hu]
    · simp only [attempt_success, if_neg hc, Option.isSome_none]
      constructor
      · intro h; exact (Bool.false_ne_true h).elim
      · intro h; exact (hc ⟨h.1, h.2.1⟩).elim
  · intro call d rest v h
    have hc : (call d).1 = 0 ∧ (call d).2 ≠ "" := by
      by_contra hcc
      simp [attempt_success, if_neg hcc] at h
    have hu : usableInstanceId (extract_instance_id (call d).2) = true := by
      by_contra huu
      rw [Bool.not_eq_true] at huu
      simp [attempt_success, if_pos hc, huu] at h
    have hv : extract_instance_id (call d).2 = some v := by
      simpa [attempt_success, if_pos hc, hu] using h
    have hstep : disk_category_loop call (d :: rest) = ([d], extract_instance_id (call d).2) := by
      simp [disk_category_loop, if_pos hc, hu]
    rw [hstep, hv]
  · intro oracle c others v hvsw hloop
    simp only [provision_multi, if_neg hvsw]
    rw [hloop]
  · intro oracle cands v h
    rcases hp : provision_multi oracle cands with ⟨calls, ov⟩
    rw [hp] at h
    cases ov with
    | none => simp at h
    | some w =>
      simp only at h
      cases h
      constructor <;> simp [provision_multi_result, hp]
  · intro oracle cands
    rcases hp : provision_multi oracle cands with ⟨calls, ov⟩
    cases ov with
    | none => right; simp [provision_multi_result, hp]
    | some w => left; simp [provision_multi_result, hp]
  · intro oracle it vs spl
    by_cases ht : optStrTruthy it = true
    · by_cases hv : optStrTruthy vs = true
      · rcases hdl : disk_category_loop
            (fun d => oracle (mk_single_call (it.getD "") (vs.getD "") spl d))
            disk_categories with ⟨tr, ov⟩
        cases ov with
        | none => right; simp [provision_single, ht, hv, hdl]
        | some w => left; simp [provision_single, ht, hv, hdl]
      · rw [Bool.not_eq_true] at hv
        right; simp [provision_single, ht, hv]
    · rw [Bool.not_eq_true] at ht
      right; simp [provision_single, ht]

/-- Witness for C3's amended contract: a successful first call stops the
disk-category loop immediately with the extracted identifier. -/
theorem C3_success_contract_witness :
    disk_category_loop
        (fun _ => ((0 : Int), "\x7b\"InstanceIdSets\":\x7b\"InstanceIdSet\":[\"i-w3\"]\x7d\x7d"))
        disk_categories =
      (["cloud_essd"], some (JVal.jstr "i-w3")) :=
  C3_success_contract.2.1
    (fun _ => ((0 : Int), "\x7b\"InstanceIdSets\":\x7b\"InstanceIdSet\":[\"i-w3\"]\x7d\x7d"))
    "cloud_essd" ["cloud_ssd", "cloud_efficiency"] (JVal.jstr "i-w3") rfl

/-- Helper: strings with equal character data are equal. -/
theorem stringDataEq {a b : String} (h : a.data = b.data) : a = b := by
  cases a
  cases b
  exact congrArg String.mk h

/-- Helper for C10: the candidates-file line loop returns exactly the
claim's records whenever every present, nonempty fifth field is a
well-formed integer literal. -/
theorem parse_candidates_lines_eq (lines : List String)
    (h : ∀ line ∈ lines,
      pyStrip line ≠ "" →
      ((splitOnChar '|' (pyStrip line)).length > 4 &&
        (splitOnChar '|' (pyStrip line)).getD 4 "" != "") = true →
      (pyInt ((splitOnChar '|' (pyStrip line)).getD 4 "")).isSome = true) :
    parse_candidates_lines lines = some (claimed_candidate_records lines) := by
  induction lines with
  | nil => rfl
  | cons line rest ih =>
    have hr := ih (fun l hl => h l (List.mem_cons_of_mem _ hl))
    simp only [parse_candidates_lines, claimed_candidate_records, List.filterMap_cons]
    by_cases hb : pyStrip line = ""
    · simp only [if_pos hb]
      exact hr
    · simp only [if_neg hb]
      by_cases hlen : (splitOnChar '|' (pyStrip line)).length ≥ 4
      · simp only [if_pos hlen]
        by_cases hC : ((splitOnChar '|' (pyStrip line)).length > 4 &&
            (splitOnChar '|' (pyStrip line)).getD 4 "" != "") = true
        · obtain ⟨n, hn⟩ := Option.isSome_iff_exists.mp (h line (by simp) hb hC)
          simp only [if_pos hC]
          rw [hn, hr]
          rfl
        · rw [Bool.not_eq_true] at hC
          simp only [hC, if_false]
          rw [hr]
          rfl
      · simp only [if_neg hlen]
        exact hr

/-- C10 (amended): `parse_candidates_file` yields exactly the records of the
non-blank lines with at least 4 pipe-separated fields, in file order, the
fifth field parsed as an integer only when present and nonempty (`none`
otherwise), and a non-existent file yields `[]` — provided every present,
nonempty fifth field is a well-formed integer literal (otherwise the
uncaught `ValueError` of `int()` aborts parsing; see the counterexample). -/
theorem C10_parse_candidates (lines : List String)
    (h : ∀ line ∈ lines,
      pyStrip line ≠ "" →
      ((splitOnChar '|' (pyStrip line)).length > 4 &&
        (splitOnChar '|' (pyStrip line)).getD 4 "" != "") = true →
      (pyInt ((splitOnChar '|' (pyStrip line)).getD 4 "")).isSome = true) :
    parse_candidates_file (some lines) = some (claimed_candidate_records lines) ∧
    parse_candidates_file none = some [] :=
  ⟨parse_candidates_lines_eq lines h, rfl⟩

/-- Witness for C10's amended statement on a concrete file: blank lines and
short lines are dropped, a missing or empty fifth field yields no core
count, extra fields are ignored, and order is preserved. -/
theorem C10_parse_candidates_witness :
    parse_candidates_file (some c10_witness_file) =
      some (claimed_candidate_records c10_witness_file) ∧
    claimed_candidate_records c10_witness_file =
      [⟨"a", "b", "c", "d", some 5⟩, ⟨"p", "q", "r", "s", none⟩,
       ⟨"t", "u", "v", "w", some 42⟩, ⟨"e", "f", "g", "h", none⟩] := by
  refine ⟨(C10_parse_candidates c10_witness_file ?_).1, rfl⟩
  decide

/-- C7: a zone id ending in a dash and a lowercase letter resolves to the
environment variable named by the fixed prefix `ALIYUN_VSWITCH_ID_` and the
letter upper-cased; any other zone id resolves to no subnet; the Selector
and the Provisioner use the same resolution. -/
theorem C7_vswitch_resolution (env : String → Option String) (zone : String) :
    (∀ (base : String) (c : Char), 'a' ≤ c → c ≤ 'z' →
      zone = base ++ String.mk ['-', c] →
      get_vswitch_id_sel env zone = env ("ALIYUN_VSWITCH_ID_" ++ String.mk [c.toUpper]) ∧
      get_vswitch_id_prov env zone = env ("ALIYUN_VSWITCH_ID_" ++ String.mk [c.toUpper])) ∧
    ((¬ ∃ (base : String) (c : Char), 'a' ≤ c ∧ c ≤ 'z' ∧ zone = base ++ String.mk ['-', c]) →
      get_vswitch_id_sel env zone = none) ∧
    get_vswitch_id_sel env zone = get_vswitch_id_prov env zone := by
  have hsame : get_vswitch_id_sel env zone = get_vswitch_id_prov env zone := rfl
  refine ⟨?_, ?_, hsame⟩
  · intro base c h1 h2 hz
    subst hz
    have hrev : (base ++ String.mk ['-', c]).data.reverse = c :: '-' :: base.data.reverse := by
      rw [String.data_append]
      simp
    constructor
    · unfold get_vswitch_id_sel
      rw [hrev]
      exact if_pos ⟨h1, h2⟩
    · unfold get_vswitch_id_prov
      rw [hrev]
      exact if_pos ⟨h1, h2⟩
  · intro hno
    unfold get_vswitch_id_sel
    split
    · next c tail heq =>
      rw [if_neg]
      intro hlc
      apply hno
      refine ⟨String.mk tail.reverse, c, hlc.1, hlc.2, ?_⟩
      apply stringDataEq
      have hd : zone.data = tail.reverse ++ ['-', c] := by
        have h2 := congrArg List.reverse heq
        simpa using h2
      rw [hd]
      rfl
    · rfl

/-- Witness for C7 at a concrete zone and environment. -/
theorem C7_vswitch_resolution_witness :
    get_vswitch_id_sel c7_env "cn-hangzhou-k" =
      c7_env ("ALIYUN_VSWITCH_ID_" ++ String.mk [Char.toUpper 'k']) ∧
    c7_env ("ALIYUN_VSWITCH_ID_" ++ String.mk [Char.toUpper 'k']) = some "vsw-77" :=
  ⟨((C7_vswitch_resolution c7_env "cn-hangzhou-k").1 "cn-hangzhou" 'k'
      (by decide) (by decide) rfl).1, rfl⟩

/-- Helper: a successful advisor query never carries an empty offer list. -/
theorem query_spot_instances_isEmpty_false (run : QueryArgs → Int × String)
    (a b c d : Int) (e : String) (f : Bool) (l : List JVal)
    (h : query_spot_instances run a b c d e f = some l) : l.isEmpty = false := by
  simp only [query_spot_instances, ite_eq_iff] at h
  rcases h with ⟨_, h⟩ | ⟨_, ⟨_, h⟩ | ⟨_, h⟩⟩
  · cases h
  · cases h
  · split at h
    · rw [ite_eq_iff] at h
      rcases h with ⟨_, h⟩ | ⟨hne, h⟩
      · cases h
      · cases h
        simpa using hne
    · cases h

/-- Helper: the Selector's strategy loop returns the first successful
query, in strategy order. -/
theorem select_loop_eq_findSome (run : QueryArgs → Int × String)
    (mnm mxm mxc : Int) (arch : String) (strats : List Strategy) :
    (select_loop run mnm mxm mxc arch strats).2 =
      strats.findSome? (strat_query run mnm mxm mxc arch) := by
  induction strats with
  | nil => rfl
  | cons s rest ih =>
    rcases s with ⟨c, m, ef, desc⟩
    have hform : query_spot_instances run c (if ef then c else mxc) (if ef then m else mnm)
        (if ef then m else mxm) arch ef = strat_query run mnm mxm mxc arch (c, m, ef, desc) := rfl
    simp only [select_loop, hform, List.findSome?_cons]
    cases hq : strat_query run mnm mxm mxc arch (c, m, ef, desc) with
    | none => exact ih
    | some l =>
      have hne := query_spot_instances_isEmpty_false run c (if ef then c else mxc)
        (if ef then m else mnm) (if ef then m else mxm) arch ef l (hform.symm ▸ hq)
      simp [hne]

/-- Helper: the strategies actually queried are exactly the failing prefix
plus the first successful one. -/
theorem select_loop_trace (run : QueryArgs → Int × String)
    (mnm mxm mxc : Int) (arch : String) (strats : List Strategy) :
    (select_loop run mnm mxm mxc arch strats).1 =
      strats.take
        ((strats.takeWhile (fun s => (strat_query run mnm mxm mxc arch s).isNone)).length + 1) := by
  induction strats with
  | nil => rfl
  | cons s rest ih =>
    rcases s with ⟨c, m, ef, desc⟩
    have hform : query_spot_instances run c (if ef then c else mxc) (if ef then m else mnm)
        (if ef then m else mxm) arch ef = strat_query run mnm mxm mxc arch (c, m, ef, desc) := rfl
    simp only [select_loop, hform, List.takeWhile]
    cases hq : strat_query run mnm mxm mxc arch (c, m, ef, desc) with
    | none => simpa [List.take_succ_cons] using ih
    | some l =>
      have hne := query_spot_instances_isEmpty_false run c (if ef then c else mxc)
        (if ef then m else mnm) (if ef then m else mxm) arch ef l (hform.symm ▸ hq)
      simp [hne]

/-- C4: the Selector builds its strategy list deterministically from
(architecture, minCPU, maxCPU) exactly as the spec orders it, executes the
strategies strictly in that order, short-circuits at the first strategy
whose advisor query yields a non-empty well-formed JSON array, and exits
with an error when every strategy fails. -/
theorem C4_strategies_and_short_circuit :
    (∀ mn mx : Int, build_query_strategies "amd64" mn mx =
      [(mn, mn, true, "1:1")] ++
        (if mn ≤ 32 then [(mn, 2 * mn, true, "1:2")] else []) ++
        (if mn < 16 then [((16 : Int), (16 : Int), true, "1:1")] else []) ++
        (if mn < 16 then [((16 : Int), (32 : Int), true, "1:2")] else []) ++
        [(mn, mx, false, "range")]) ∧
    (∀ mn mx : Int, build_query_strategies "arm64" mn mx =
      [(mn, 2 * mn, true, "1:2"), (mn, mx, false, "range")]) ∧
    (∀ (run : QueryArgs → Int × String) (mnm mxm mxc : Int) (arch : String)
        (strats : List Strategy),
      (select_loop run mnm mxm mxc arch strats).2 =
        strats.findSome? (strat_query run mnm mxm mxc arch)) ∧
    (∀ (run : QueryArgs → Int × String) (mnm mxm mxc : Int) (arch : String)
        (strats : List Strategy),
      (select_loop run mnm mxm mxc arch strats).1 =
        strats.take
          ((strats.takeWhile
            (fun s => (strat_query run mnm mxm mxc arch s).isNone)).length + 1)) ∧
    (∀ (run : QueryArgs → Int × String) (mnm mxm mxc : Int) (arch : String)
        (strats : List Strategy),
      ((select_loop run mnm mxm mxc arch strats).2 = none ↔
        ∀ s ∈ strats, strat_query run mnm mxm mxc arch s = none)) ∧
    (∀ (run : QueryArgs → Int × String) (mnm mxm mxc mn mx : Int) (arch archb : String),
      (∀ s ∈ build_query_strategies archb mn mx, strat_query run mnm mxm mxc arch s = none) →
      selector_strategy_exit
        (select_loop run mnm mxm mxc arch (build_query_strategies archb mn mx)).2 = 1) := by
  refine ⟨?_, ?_, select_loop_eq_findSome, select_loop_trace, ?_, ?_⟩
  · intro mn mx
    simp [build_query_strategies, Int.mul_comm]
  · intro mn mx
    simp [build_query_strategies, Int.mul_comm]
  · intro run mnm mxm mxc arch strats
    rw [select_loop_eq_findSome]
    exact List.findSome?_eq_none_iff
  · intro run mnm mxm mxc mn mx arch archb hall
    have h2 : (select_loop run mnm mxm mxc arch (build_query_strategies archb mn mx)).2 = none := by
      rw [select_loop_eq_findSome]
      exact List.findSome?_eq_none_iff.mpr hall
    rw [h2]
    rfl

/-- Witness for C4: with an advisor that always fails, every amd64 strategy
query fails and the Selector's strategy phase reports exit code 1. -/
theorem C4_strategies_witness :
    selector_strategy_exit
      (select_loop (fun _ => ((1 : Int), "")) 8 64 64 "x86_64"
        (build_query_strategies "amd64" 8 64)).2 = 1 :=
  C4_strategies_and_short_circuit.2.2.2.2.2 (fun _ => ((1 : Int), "")) 8 64 64 8 64
    "x86_64" "amd64" (by intro s hs; fin_cases hs <;> rfl)

/-- Helper: every list is a Boolean prefix of itself followed by anything. -/
theorem listIsPre_self_append (l t : List Char) : listIsPre l (l ++ t) = true := by
  induction l with
  | nil => rfl
  | cons a as ih => simp [listIsPre, ih]

/-- Helper: the Boolean prefix test as an existential decomposition. -/
theorem listIsPre_iff_exists {l t : List Char} :
    listIsPre l t = true ↔ ∃ r, t = l ++ r := by
  constructor
  · intro h
    induction l generalizing t with
    | nil => exact ⟨t, rfl⟩
    | cons a as ih =>
      cases t with
      | nil => simp [listIsPre] at h
      | cons b bs =>
        simp only [listIsPre, Bool.and_eq_true, beq_iff_eq] at h
        obtain ⟨r, hr⟩ := ih h.2
        exact ⟨r, by simp [hr, h.1]⟩
  · rintro ⟨r, rfl⟩
    exact listIsPre_self_append l r

/-- Helper: `takeWhile` over a satisfied block stops at the first failing
element. -/
theorem takeWhile_append_stop {p : Char → Bool} (l : List Char) (a : Char) (r : List Char)
    (hl : ∀ c ∈ l, p c = true) (ha : p a = false) :
    (l ++ a :: r).takeWhile p = l := by
  induction l with
  | nil => simp [List.takeWhile_cons, ha]
  | cons x xs ih =>
    have hx : p x = true := hl x (List.mem_cons_self x xs)
    simp [List.takeWhile_cons, hx, ih (fun c hc => hl c (List.mem_cons_of_mem _ hc))]

/-- C6 (amended): the derived CPU-core count is 4·N for a `.<N>xlarge`
suffix (N a nonempty digit run), 4 for `.xlarge`, 2 for `.large` and
`.medium`, and undetermined (`none`) otherwise.  The exclusion clause holds
only on the source's actual route to name derivation: when the CPU field is
absent or null, or is a non-empty string that is no integer literal, and
the type name is unrecognized, the offer is skipped and the loop continues.
(A present-but-empty CPU field string instead crashes the Selector with an
uncaught `TypeError` — see the counterexample.) -/
theorem C6_parse_cpu_characterization :
    (∀ (s : String) (pre ds : List Char), ds ≠ [] → (∀ c ∈ ds, c.isDigit = true) →
      s.data = pre ++ '.' :: ds ++ ("xlarge").data →
      parse_cpu_from_instance_type s = some ((digitsToNat ds : Int) * 4)) ∧
    (∀ (s : String) (pre : List Char), s.data = pre ++ (".xlarge").data →
      parse_cpu_from_instance_type s = some 4) ∧
    (∀ (s : String) (pre : List Char), s.data = pre ++ (".large").data →
      parse_cpu_from_instance_type s = some 2) ∧
    (∀ (s : String) (pre : List Char), s.data = pre ++ (".medium").data →
      parse_cpu_from_instance_type s = some 2) ∧
    (∀ s : String,
      (¬ ∃ pre ds, ds ≠ [] ∧ (∀ c ∈ ds, c.isDigit = true) ∧
        s.data = pre ++ '.' :: ds ++ ("xlarge").data) →
      (¬ ∃ pre, s.data = pre ++ (".xlarge").data) →
      (¬ ∃ pre, s.data = pre ++ (".large").data) →
      (¬ ∃ pre, s.data = pre ++ (".medium").data) →
      parse_cpu_from_instance_type s = none) ∧
    (∀ (inst : JVal) (mn mm : Int) (arch : String) (max_c : Nat) (rest : List JVal) (cnt : Nat),
      (match get_field_value inst ["cpuCoreCount", "cpu_cores", "CpuCores", "cores", "Cores"] with
        | some s2 => s2 ≠ "" ∧ pyInt s2 = none
        | none => True) →
      parse_cpu_from_instance_type
        ((get_field_value inst ["instanceTypeId", "instance_type", "InstanceType"]).getD "") =
          none →
      filter_one_src inst mn mm arch = FilterStep.skip ∧
      filter_one inst mn mm arch = none ∧
      filter_instances_src_go mn mm arch max_c (inst :: rest) cnt =
        filter_instances_src_go mn mm arch max_c rest cnt) := by
  refine ⟨?_, ?_, ?_, ?_, ?_, ?_⟩
  · intro s pre ds hne hdig hdata
    obtain ⟨l⟩ := s
    have hdl : l = pre ++ '.' :: ds ++ ("xlarge").data := hdata
    subst hdl
    have htw : (ds.reverse ++ '.' :: pre.reverse).takeWhile Char.isDigit = ds.reverse :=
      takeWhile_append_stop _ '.' _ (fun c hc => hdig c (List.mem_reverse.mp hc)) rfl
    have hne' : ds.reverse ≠ [] := by simpa using hne
    have hdrop : (ds.reverse ++ '.' :: pre.reverse).drop ds.reverse.length =
        '.' :: pre.reverse := List.drop_left _ _
    simp [parse_cpu_from_instance_type, listIsPre, htw, hne', hdrop]
  · intro s pre hdata
    obtain ⟨l⟩ := s
    have hdl : l = pre ++ (".xlarge").data := hdata
    subst hdl
    simp [parse_cpu_from_instance_type, strEndsWith, listIsPre,
      show Char.isDigit '.' = false from rfl]
  · intro s pre hdata
    obtain ⟨l⟩ := s
    have hdl : l = pre ++ (".large").data := hdata
    subst hdl
    simp [parse_cpu_from_instance_type, strEndsWith, listIsPre,
      show (('x' : Char) == '.') = false from rfl,
      show Char.isDigit '.' = false from rfl]
  · intro s pre hdata
    obtain ⟨l⟩ := s
    have hdl : l = pre ++ (".medium").data := hdata
    subst hdl
    simp [parse_cpu_from_instance_type, strEndsWith, listIsPre,
      show (('e' : Char) == 'm') = false from rfl,
      show Char.isDigit '.' = false from rfl]
  · intro s h1 h2 h3 h4
    have hends : ∀ suf : String, strEndsWith s suf = true → ∃ pre, s.data = pre ++ suf.data := by
      intro suf hs
      obtain ⟨r, hr⟩ := listIsPre_iff_exists.mp hs
      refine ⟨r.reverse, ?_⟩
      have h5 := congrArg List.reverse hr
      simpa using h5
    have hxe : strEndsWith s ".xlarge" = false := by
      cases hq : strEndsWith s ".xlarge" with
      | false => rfl
      | true => exact absurd (hends _ hq) h2
    have hle : strEndsWith s ".large" = false := by
      cases hq : strEndsWith s ".large" with
      | false => rfl
      | true => exact absurd (hends _ hq) h3
    have hme : strEndsWith s ".medium" = false := by
      cases hq : strEndsWith s ".medium" with
      | false => rfl
      | true => exact absurd (hends _ hq) h4
    simp only [parse_cpu_from_instance_type]
    cases hpre : listIsPre (("egralx").data) s.data.reverse with
    | false => simp [hpre, hxe, hle, hme]
    | true =>
      obtain ⟨r, hr⟩ := listIsPre_iff_exists.mp hpre
      have hdrop6 : s.data.reverse.drop 6 = r := by
        rw [hr]
        simpa using List.drop_left (("egralx").data) r
      by_cases hcond : r.takeWhile Char.isDigit ≠ [] ∧
          (r.drop (r.takeWhile Char.isDigit).length).head? = some '.'
      · exfalso
        apply h1
        have hsplit : r.takeWhile Char.isDigit ++ r.dropWhile Char.isDigit = r :=
          List.takeWhile_append_dropWhile _ _
        have hdw : r.drop (r.takeWhile Char.isDigit).length = r.dropWhile Char.isDigit := by
          nth_rewrite 2 [← hsplit]
          exact List.drop_left _ _
        rw [hdw] at hcond
        rcases hd : r.dropWhile Char.isDigit with _ | ⟨a, u⟩
        · rw [hd] at hcond
          exact absurd hcond.2 (by simp)
        · rw [hd] at hcond
          have ha : a = '.' := by
            have h6 := hcond.2
            simp at h6
            exact h6
          have hs2 : s.data = r.reverse ++ ("xlarge").data := by
            have h5 := congrArg List.reverse hr
            simpa using h5
          have hrrev : r.reverse = u.reverse ++ '.' :: (r.takeWhile Char.isDigit).reverse := by
            nth_rewrite 1 [← hsplit]
            rw [hd, ha]
            simp
          refine ⟨u.reverse, (r.takeWhile Char.isDigit).reverse, by simpa using hcond.1,
            fun c hc => List.mem_takeWhile_imp (List.mem_reverse.mp hc), ?_⟩
          rw [hs2, hrrev]
      · simp only [hdrop6, reduceIte]
        rw [if_neg hcond]
        simp [hxe, hle, hme]
  · intro inst mn mm arch max_c rest cnt hcpu hparse
    have hsrc : filter_one_src inst mn mm arch = FilterStep.skip := by
      simp only [filter_one_src]
      by_cases htz : (!optStrTruthy
            (get_field_value inst ["instanceTypeId", "instance_type", "InstanceType"]) ||
          !optStrTruthy (get_field_value inst ["zoneId", "zone_id", "ZoneId"]) ||
          !optStrTruthy (get_field_value inst
            ["pricePerCore", "price_per_core", "PricePerCore", "price", "Price"])) = true
      · simp [htz]
      · rw [Bool.not_eq_true] at htz
        simp only [htz, if_false]
        rcases hc0 : get_field_value inst
            ["cpuCoreCount", "cpu_cores", "CpuCores", "cores", "Cores"] with _ | s2
        · simp [hc0, hparse]
        · rw [hc0] at hcpu
          obtain ⟨hne, hpy⟩ := hcpu
          simp [hc0, hne, hpy, hparse]
    have hone : filter_one inst mn mm arch = none := by
      simp only [filter_one, hsrc]
    refine ⟨hsrc, hone, ?_⟩
    simp only [filter_instances_src_go, hsrc]

/-- Witness for C6 at concrete type names and a concrete offer whose absent
CPU field routes it to name derivation, where it is skipped. -/
theorem C6_parse_cpu_witness :
    parse_cpu_from_instance_type "ecs.c7.2xlarge" = some ((digitsToNat ['2'] : Int) * 4) ∧
    parse_cpu_from_instance_type "ecs.g6.xlarge" = some 4 ∧
    parse_cpu_from_instance_type "ecs.t5.large" = some 2 ∧
    parse_cpu_from_instance_type "ecs.t5.medium" = some 2 ∧
    (filter_one_src c6_offer 8 8 "amd64" = FilterStep.skip ∧
      filter_one c6_offer 8 8 "amd64" = none) := by
  refine ⟨?_, ?_, ?_, ?_, ?_⟩
  · exact C6_parse_cpu_characterization.1 "ecs.c7.2xlarge" (("ecs.c7").data) ['2']
      (by decide) (by decide) rfl
  · exact C6_parse_cpu_characterization.2.1 "ecs.g6.xlarge" (("ecs.g6").data) rfl
  · exact C6_parse_cpu_characterization.2.2.1 "ecs.t5.large" (("ecs.t5").data) rfl
  · exact C6_parse_cpu_characterization.2.2.2.1 "ecs.t5.medium" (("ecs.t5").data) rfl
  · exact ⟨(C6_parse_cpu_characterization.2.2.2.2.2 c6_offer 8 8 "amd64" 5 [] 0
        (by exact trivial) rfl).1,
      (C6_parse_cpu_characterization.2.2.2.2.2 c6_offer 8 8 "amd64" 5 [] 0
        (by exact trivial) rfl).2.1⟩

/-- C6 counterexample: an offer with an unrecognized type-name suffix whose
CPU field is a present-but-empty string is neither excluded nor skipped —
the unconverted empty string reaches the minimum-requirement comparison and
the Selector crashes with an uncaught `TypeError` (`none` from the
crash-aware loop), unlike the clean skip an excluded offer produces. -/
theorem C6_counterexample :
    parse_cpu_from_instance_type "ecs.bigmem" = none ∧
    filter_one_src c6_crash_offer 8 8 "amd64" = FilterStep.tyerr ∧
    filter_instances_src [c6_crash_offer] 8 8 "amd64" 5 = none ∧
    filter_instances_src [c6_offer] 8 8 "amd64" 5 = some [] :=
  ⟨rfl, rfl, rfl, rfl⟩

/-- Helper: the candidate cap of `filter_instances` bounds the result
length. -/
theorem filter_instances_go_length_le (mn mm : Int) (arch : String) (maxc : Nat)
    (l : List JVal) (cnt : Nat) :
    (filter_instances_go mn mm arch maxc l cnt).length ≤ max (maxc - cnt) 1 := by
  induction l generalizing cnt with
  | nil => simp [filter_instances_go]
  | cons a rest ih =>
    simp only [filter_instances_go]
    cases hf : filter_one a mn mm arch with
    | none => exact ih cnt
    | some c =>
      by_cases hc : cnt + 1 ≥ maxc
      · simp only [if_pos hc, List.length_cons, List.length_nil]
        omega
      · simp only [if_neg hc, List.length_cons]
        have h2 := ih (cnt + 1)
        omega

/-- C5 (amended): every line of the candidates file has the pipe-delimited
form `INSTANCE_TYPE|ZONE_ID|VSWITCH_ID|SPOT_PRICE_LIMIT|CPU_CORES` with a
nonempty VSwitch and a price field equal to
price-per-core × cpu-cores × 1.2 formatted to 4 decimals; the file holds at
most 5 lines, in advisor order; and the rounded price value is nonnegative
for positive inputs and strictly positive whenever the product exceeds
0.00005 (but rounds to the zero field `0.0000` below that — see the
counterexample, which refutes the claim's "> 0 for positive inputs"). -/
theorem C5_candidate_file_lines :
    (∀ (env : String → Option String) (cands : List (String × String × ℚ × Int))
        (line : String), line ∈ write_candidates_lines env cands →
      ∃ r ∈ cands, ∃ v, get_vswitch_id_sel env r.2.1 = some v ∧ v ≠ "" ∧
        line = r.1 ++ "|" ++ r.2.1 ++ "|" ++ v ++ "|" ++
          formatFixed4 (r.2.2.1 * (r.2.2.2 : ℚ) * (6 / 5)) ++ "|" ++ toString r.2.2.2) ∧
    (∀ (env : String → Option String) (c : String × String × ℚ × Int)
        (rest : List (String × String × ℚ × Int)),
      write_candidates_lines env (c :: rest) =
        (match get_vswitch_id_sel env c.2.1 with
         | some v => if v = "" then [] else [candidate_line c.1 c.2.1 v c.2.2.1 c.2.2.2]
         | none => []) ++ write_candidates_lines env rest) ∧
    (∀ (env : String → Option String) (instances : List JVal) (mn mm : Int) (arch : String),
      (write_candidates_lines env (filter_instances instances mn mm arch 5)).length ≤ 5) ∧
    (∀ q : ℚ, 0 < q → 0 ≤ roundHalfEven (q * 10000)) ∧
    (∀ q : ℚ, 1 / 20000 < q → 1 ≤ roundHalfEven (q * 10000)) := by
  refine ⟨?_, ?_, ?_, ?_, ?_⟩
  · intro env cands line hline
    simp only [write_candidates_lines, List.mem_filterMap] at hline
    obtain ⟨r, hr, heq⟩ := hline
    refine ⟨r, hr, ?_⟩
    rcases hv : get_vswitch_id_sel env r.2.1 with _ | v
    · simp only [hv] at heq
      exact absurd heq (by simp)
    · simp only [hv] at heq
      by_cases hve : v = ""
      · rw [if_pos hve] at heq
        cases heq
      · rw [if_neg hve] at heq
        refine ⟨v, rfl, hve, ?_⟩
        cases heq
        rfl
  · intro env c rest
    simp only [write_candidates_lines, List.filterMap_cons]
    rcases hv : get_vswitch_id_sel env c.2.1 with _ | v
    · simp
    · by_cases hve : v = "" <;> simp [hve]
  · intro env instances mn mm arch
    have h1 : (write_candidates_lines env (filter_instances instances mn mm arch 5)).length ≤
        (filter_instances instances mn mm arch 5).length :=
      List.length_filterMap_le _ _
    have h2 := filter_instances_go_length_le mn mm arch 5 instances 0
    simp only [filter_instances]
    simp only [filter_instances] at h1
    omega
  · intro q hq
    have hfl : (0 : Int) ≤ ⌊q * 10000⌋ := Int.floor_nonneg.mpr (by positivity)
    simp only [roundHalfEven]
    split
    · exact hfl
    · split
      · omega
      · split
        · exact hfl
        · omega
  · intro q hq
    have hx : (1 : ℚ) / 2 < q * 10000 := by linarith
    have hfl : (0 : Int) ≤ ⌊q * 10000⌋ := Int.floor_nonneg.mpr (by linarith)
    have hub : ((⌊q * 10000⌋ : Int) : ℚ) ≤ q * 10000 := Int.floor_le _
    simp only [roundHalfEven]
    split
    · rename_i hr
      by_contra hcon
      push_neg at hcon
      have hf0 : ⌊q * 10000⌋ = 0 := by omega
      rw [hf0] at hr
      push_cast at hr
      linarith
    · split
      · omega
      · split
        · rename_i hr1 hr2 hpar
          by_contra hcon
          push_neg at hcon
          have hf0 : ⌊q * 10000⌋ = 0 := by omega
          rw [hf0] at hr2
          push_cast at hr2
          linarith
        · omega

/-- C5 counterexample: a positive price per core of `0.000001` with 8 cores
passes the Selector's filter, and its written price field is `0.0000` —
indistinguishable from a zero limit — refuting "price ceiling > 0 for
positive inputs". -/
theorem C5_counterexample :
    filter_instances [c5_offer] 8 8 "amd64" 5 =
      [("ecs.x.2xlarge", "cn-test-a", (1 : ℚ) / 1000000, 8)] ∧
    (0 : ℚ) < 1 / 1000000 ∧ (0 : Int) < 8 ∧
    write_candidates_lines c5_env (filter_instances [c5_offer] 8 8 "amd64" 5) =
      ["ecs.x.2xlarge|cn-test-a|vsw-x|0.0000|8"] ∧
    formatFixed4 ((1 / 1000000 : ℚ) * ((8 : Int) : ℚ) * (6 / 5)) = "0.0000" ∧
    formatFixed4 ((1 / 1000000 : ℚ) * ((8 : Int) : ℚ) * (6 / 5)) = formatFixed4 0 := by
  have hval : applyExp10 ((digitsToNat (("0000001").data) : ℚ) / (10 : ℚ) ^ 6) 0 =
      (1 : ℚ) / 1000000 := by
    have hd : digitsToNat (("0000001").data) = 1 := rfl
    rw [hd]
    norm_num [applyExp10]
  have hfil : filter_instances [c5_offer] 8 8 "amd64" 5 =
      [("ecs.x.2xlarge", "cn-test-a", (1 : ℚ) / 1000000, 8)] := by
    have h0 : filter_instances [c5_offer] 8 8 "amd64" 5 =
        [("ecs.x.2xlarge", "cn-test-a",
          applyExp10 ((digitsToNat (("0000001").data) : ℚ) / (10 : ℚ) ^ 6) 0, 8)] := rfl
    rw [h0, hval]
  have hround : roundHalfEven ((1 / 1000000 : ℚ) * ((8 : Int) : ℚ) * (6 / 5) * 10000) = 0 := by
    have hv2 : ((1 / 1000000 : ℚ) * ((8 : Int) : ℚ) * (6 / 5) * 10000) = 12 / 125 := by
      push_cast
      norm_num
    rw [hv2]
    have hfl : ⌊(12 / 125 : ℚ)⌋ = 0 := by
      rw [Int.floor_eq_zero_iff]
      constructor <;> norm_num
    simp only [roundHalfEven, hfl]
    norm_num
  have hfmt : formatFixed4 ((1 / 1000000 : ℚ) * ((8 : Int) : ℚ) * (6 / 5)) = "0.0000" := by
    simp only [formatFixed4, hround]
    rfl
  have hround0 : roundHalfEven ((0 : ℚ) * 10000) = 0 := by
    have hz : ((0 : ℚ) * 10000) = 0 := by norm_num
    rw [hz]
    have hfl : ⌊(0 : ℚ)⌋ = 0 := by norm_num
    simp only [roundHalfEven, hfl]
    norm_num
  have hfmt0 : formatFixed4 (0 : ℚ) = "0.0000" := by
    simp only [formatFixed4, hround0]
    rfl
  have hcl : candidate_line "ecs.x.2xlarge" "cn-test-a" "vsw-x" ((1 : ℚ) / 1000000) 8 =
      "ecs.x.2xlarge|cn-test-a|vsw-x|0.0000|8" := by
    simp only [candidate_line, hfmt]
    rfl
  have hlines : write_candidates_lines c5_env [("ecs.x.2xlarge", "cn-test-a",
      (1 : ℚ) / 1000000, 8)] =
      [candidate_line "ecs.x.2xlarge" "cn-test-a" "vsw-x" ((1 : ℚ) / 1000000) 8] := rfl
  refine ⟨hfil, by norm_num, by norm_num, ?_, hfmt, by rw [hfmt, hfmt0]⟩
  rw [hfil, hlines, hcl]

/-- Witness for C5's amended numeric bound: a product of 1 (well above the
half-of-a-ten-thousandth threshold) rounds to a strictly positive count. -/
theorem C5_candidate_file_lines_witness : 1 ≤ roundHalfEven ((1 : ℚ) * 10000) :=
  C5_candidate_file_lines.2.2.2.2 1 (by norm_num)

/-- Helper: validity bounds of a `Char`'s code point. -/
theorem char_toNat_valid (c : Char) :
    c.toNat < 0xd800 ∨ (0xdfff < c.toNat ∧ c.toNat < 0x110000) := c.valid

/-- Helper: decoding inverts encoding for a single code point, with any
remaining bytes untouched. -/
theorem utf8DecodeChar_encode (c : Char) (rest : List Nat) :
    utf8DecodeChar (utf8EncodeChar c.toNat ++ rest) = some (c, rest) := by
  have hv := char_toNat_valid c
  have hlt : c.toNat < 0x110000 := by
    rcases hv with h | h
    · omega
    · exact h.2
  by_cases h1 : c.toNat < 0x80
  · simp only [utf8EncodeChar, if_pos h1, List.singleton_append]
    simp only [utf8DecodeChar, if_pos h1]
    rw [Char.ofNat_toNat]
  · by_cases h2 : c.toNat < 0x800
    · simp only [utf8EncodeChar, if_neg h1, if_pos h2, List.cons_append, List.nil_append]
      simp only [utf8DecodeChar]
      have c1 : ¬ (0xC0 + c.toNat / 64 < 0x80) := by omega
      have c2 : ¬ (0xC0 + c.toNat / 64 < 0xC2) := by omega
      have c3 : 0xC0 + c.toNat / 64 < 0xE0 := by omega
      have c4 : 0x80 ≤ 0x80 + c.toNat % 64 ∧ 0x80 + c.toNat % 64 < 0xC0 := by omega
      rw [if_neg c1, if_neg c2, if_pos c3, if_pos c4]
      have hval : (0xC0 + c.toNat / 64 - 0xC0) * 64 + (0x80 + c.toNat % 64 - 0x80) = c.toNat := by
        omega
      rw [hval, Char.ofNat_toNat]
    · by_cases h3 : c.toNat < 0x10000
      · simp only [utf8EncodeChar, if_neg h1, if_neg h2, if_pos h3, List.cons_append,
          List.nil_append]
        simp only [utf8DecodeChar]
        have c1 : ¬ (0xE0 + c.toNat / 4096 < 0x80) := by omega
        have c2 : ¬ (0xE0 + c.toNat / 4096 < 0xC2) := by omega
        have c3 : ¬ (0xE0 + c.toNat / 4096 < 0xE0) := by omega
        have c4 : 0xE0 + c.toNat / 4096 < 0xF0 := by omega
        rw [if_neg c1, if_neg c2, if_neg c3, if_pos c4]
        have c5 : (if 0xE0 + c.toNat / 4096 = 0xE0 then 0xA0 else 0x80) ≤
              0x80 + c.toNat / 64 % 64 ∧
            0x80 + c.toNat / 64 % 64 < (if 0xE0 + c.toNat / 4096 = 0xED then 0xA0 else 0xC0) ∧
            0x80 ≤ 0x80 + c.toNat % 64 ∧ 0x80 + c.toNat % 64 < 0xC0 := by
          refine ⟨?_, ?_, by omega, by omega⟩
          · split
            · rename_i he
              omega
            · omega
          · split
            · rename_i he
              rcases hv with hv | hv <;> omega
            · omega
        rw [if_pos c5]
        have hval : (0xE0 + c.toNat / 4096 - 0xE0) * 4096 +
            (0x80 + c.toNat / 64 % 64 - 0x80) * 64 + (0x80 + c.toNat % 64 - 0x80) = c.toNat := by
          omega
        rw [hval, Char.ofNat_toNat]
      · simp only [utf8EncodeChar, if_neg h1, if_neg h2, if_neg h3, List.cons_append,
          List.nil_append]
        simp only [utf8DecodeChar]
        have c1 : ¬ (0xF0 + c.toNat / 262144 < 0x80) := by omega
        have c2 : ¬ (0xF0 + c.toNat / 262144 < 0xC2) := by omega
        have c3 : ¬ (0xF0 + c.toNat / 262144 < 0xE0) := by omega
        have c4 : ¬ (0xF0 + c.toNat / 262144 < 0xF0) := by omega
        have c5 : 0xF0 + c.toNat / 262144 < 0xF5 := by omega
        rw [if_neg c1, if_neg c2, if_neg c3, if_neg c4, if_pos c5]
        have c6 : (if 0xF0 + c.toNat / 262144 = 0xF0 then 0x90 else 0x80) ≤
              0x80 + c.toNat / 4096 % 64 ∧
            0x80 + c.toNat / 4096 % 64 <
              (if 0xF0 + c.toNat / 262144 = 0xF4 then 0x90 else 0xC0) ∧
            0x80 ≤ 0x80 + c.toNat / 64 % 64 ∧ 0x80 + c.toNat / 64 % 64 < 0xC0 ∧
            0x80 ≤ 0x80 + c.toNat % 64 ∧ 0x80 + c.toNat % 64 < 0xC0 := by
          refine ⟨?_, ?_, by omega, by omega, by omega, by omega⟩
          · split
            · rename_i he
              omega
            · omega
          · split
            · rename_i he
              omega
            · omega
        rw [if_pos c6]
        have hval : (0xF0 + c.toNat / 262144 - 0xF0) * 262144 +
            (0x80 + c.toNat / 4096 % 64 - 0x80) * 4096 +
            (0x80 + c.toNat / 64 % 64 - 0x80) * 64 + (0x80 + c.toNat % 64 - 0x80) = c.toNat := by
          omega
        rw [hval, Char.ofNat_toNat]

/-- Helper: a code point always encodes to at least one byte. -/
theorem utf8EncodeChar_ne_nil (n : Nat) : utf8EncodeChar n ≠ [] := by
  unfold utf8EncodeChar
  split
  · simp
  · split
    · simp
    · split <;> simp

/-- Helper: every byte of an encoded character fits in an octet. -/
theorem utf8EncodeChar_lt_256 (c : Char) : ∀ b ∈ utf8EncodeChar c.toNat, b < 256 := by
  have hlt : c.toNat < 0x110000 := by
    rcases char_toNat_valid c with h | h
    · omega
    · exact h.2
  intro b hb
  unfold utf8EncodeChar at hb
  split at hb
  · rename_i h1
    simp at hb
    omega
  · split at hb
    · rename_i h1 h2
      simp at hb
      rcases hb with hb | hb <;> omega
    · split at hb
      · rename_i h1 h2 h3
        simp at hb
        rcases hb with hb | hb | hb <;> omega
      · rename_i h1 h2 h3
        simp at hb
        rcases hb with hb | hb | hb | hb <;> omega

/-- Helper: every byte of an encoded string fits in an octet. -/
theorem utf8Encode_lt_256 (s : String) : ∀ b ∈ utf8Encode s, b < 256 := by
  intro b hb
  unfold utf8Encode at hb
  simp only [List.mem_flatten, List.mem_map] at hb
  obtain ⟨l, ⟨c, hc, rfl⟩, hbl⟩ := hb
  exact utf8EncodeChar_lt_256 c b hbl

/-- Helper: the decoding loop inverts encoding given sufficient fuel. -/
theorem utf8DecodeLoop_encode (cs : List Char) :
    ∀ fuel, ((cs.map (fun c => utf8EncodeChar c.toNat)).flatten).length ≤ fuel →
      utf8DecodeLoop fuel ((cs.map (fun c => utf8EncodeChar c.toNat)).flatten) = some cs := by
  induction cs with
  | nil =>
    intro fuel _
    cases fuel <;> rfl
  | cons c cs' ih =>
    intro fuel hlen
    obtain ⟨b, bs', hb⟩ : ∃ b bs', utf8EncodeChar c.toNat = b :: bs' := by
      cases he : utf8EncodeChar c.toNat with
      | nil => exact absurd he (utf8EncodeChar_ne_nil _)
      | cons b bs' => exact ⟨b, bs', rfl⟩
    simp only [List.map_cons, List.flatten_cons] at hlen ⊢
    rw [hb] at hlen ⊢
    cases fuel with
    | zero =>
      simp at hlen
    | succ f =>
      rw [List.cons_append]
      simp only [utf8DecodeLoop]
      have hdc : utf8DecodeChar
          (b :: (bs' ++ (cs'.map (fun c => utf8EncodeChar c.toNat)).flatten)) =
          some (c, (cs'.map (fun c => utf8EncodeChar c.toNat)).flatten) := by
        rw [← List.cons_append, ← hb]
        exact utf8DecodeChar_encode c _
      rw [hdc]
      rw [List.cons_append, List.length_cons, List.length_append] at hlen
      have hrec := ih f (by omega)
      simp [hrec]

/-- Helper: UTF-8 decoding inverts UTF-8 encoding. -/
theorem utf8Decode_utf8Encode (s : String) : utf8Decode (utf8Encode s) = some s := by
  obtain ⟨l⟩ := s
  unfold utf8Decode utf8Encode
  rw [utf8DecodeLoop_encode l _ (le_refl _)]
  rfl

/-- Helper: alphabet indices recover their characters (all 64 cases). -/
theorem b64Index_b64Char_fin : ∀ n : Fin 64, b64Index (b64Char n.val) = some n.val := by
  decide

/-- Helper: `b64Index` inverts `b64Char` below 64. -/
theorem b64Index_b64Char {n : Nat} (h : n < 64) : b64Index (b64Char n) = some n :=
  b64Index_b64Char_fin ⟨n, h⟩

/-- Helper: no alphabet character is the padding character. -/
theorem b64Char_ne_pad_fin : ∀ n : Fin 64, b64Char n.val ≠ '=' := by
  decide

/-- Helper form with a bound. -/
theorem b64Char_ne_pad {n : Nat} (h : n < 64) : b64Char n ≠ '=' :=
  b64Char_ne_pad_fin ⟨n, h⟩

/-- Helper: alphabet characters pass the decoder's filter (64 cases). -/
theorem b64Char_filter_fin :
    ∀ n : Fin 64, (isB64Alphabet (b64Char n.val) || b64Char n.val = '=') = true := by
  decide

/-- Helper: no alphabet character is Python whitespace (64 cases). -/
theorem b64Char_no_space_fin : ∀ n : Fin 64, isPySpace (b64Char n.val) = false := by
  decide

/-- Helper: every character emitted by the base64 encoder of octets passes
the decoder's filter. -/
theorem b64EncodeGroups_filter (bs : List Nat) (hb : ∀ x ∈ bs, x < 256) :
    ∀ c ∈ b64EncodeGroups bs, (isB64Alphabet c || c = '=') = true := by
  induction bs using b64EncodeGroups.induct with
  | case1 => simp [b64EncodeGroups]
  | case2 a =>
    have h1 : a < 256 := hb a (by simp)
    intro c hc
    simp only [b64EncodeGroups] at hc
    simp at hc
    rcases hc with hc | hc | hc <;> subst hc
    · exact b64Char_filter_fin ⟨a / 4, by omega⟩
    · exact b64Char_filter_fin ⟨a % 4 * 16, by omega⟩
    · simp
  | case3 a b =>
    have h1 : a < 256 := hb a (by simp)
    have h2 : b < 256 := hb b (by simp)
    intro c hc
    simp only [b64EncodeGroups] at hc
    simp at hc
    rcases hc with hc | hc | hc | hc <;> subst hc
    · exact b64Char_filter_fin ⟨a / 4, by omega⟩
    · exact b64Char_filter_fin ⟨a % 4 * 16 + b / 16, by omega⟩
    · exact b64Char_filter_fin ⟨b % 16 * 4, by omega⟩
    · simp
  | case4 a b c2 rest ih =>
    have h1 : a < 256 := hb a (by simp)
    have h2 : b < 256 := hb b (by simp)
    have h3 : c2 < 256 := hb c2 (by simp)
    intro c hc
    simp only [b64EncodeGroups] at hc
    simp only [List.mem_cons] at hc
    rcases hc with hc | hc | hc | hc | hc
    · subst hc
      exact b64Char_filter_fin ⟨a / 4, by omega⟩
    · subst hc
      exact b64Char_filter_fin ⟨a % 4 * 16 + b / 16, by omega⟩
    · subst hc
      exact b64Char_filter_fin ⟨b % 16 * 4 + c2 / 64, by omega⟩
    · subst hc
      exact b64Char_filter_fin ⟨c2 % 64, by omega⟩
    · exact ih (fun x hx => hb x (by simp [hx])) c hc

/-- Helper: the base64 encoder of octets emits no whitespace. -/
theorem b64EncodeGroups_no_space (bs : List Nat) (hb : ∀ x ∈ bs, x < 256) :
    ∀ c ∈ b64EncodeGroups bs, isPySpace c = false := by
  induction bs using b64EncodeGroups.induct with
  | case1 => simp [b64EncodeGroups]
  | case2 a =>
    have h1 : a < 256 := hb a (by simp)
    intro c hc
    simp only [b64EncodeGroups] at hc
    simp at hc
    rcases hc with hc | hc | hc <;> subst hc
    · exact b64Char_no_space_fin ⟨a / 4, by omega⟩
    · exact b64Char_no_space_fin ⟨a % 4 * 16, by omega⟩
    · rfl
  | case3 a b =>
    have h1 : a < 256 := hb a (by simp)
    have h2 : b < 256 := hb b (by simp)
    intro c hc
    simp only [b64EncodeGroups] at hc
    simp at hc
    rcases hc with hc | hc | hc | hc <;> subst hc
    · exact b64Char_no_space_fin ⟨a / 4, by omega⟩
    · exact b64Char_no_space_fin ⟨a % 4 * 16 + b / 16, by omega⟩
    · exact b64Char_no_space_fin ⟨b % 16 * 4, by omega⟩
    · rfl
  | case4 a b c2 rest ih =>
    have h1 : a < 256 := hb a (by simp)
    have h2 : b < 256 := hb b (by simp)
    have h3 : c2 < 256 := hb c2 (by simp)
    intro c hc
    simp only [b64EncodeGroups] at hc
    simp only [List.mem_cons] at hc
    rcases hc with hc | hc | hc | hc | hc
    · subst hc
      exact b64Char_no_space_fin ⟨a / 4, by omega⟩
    · subst hc
      exact b64Char_no_space_fin ⟨a % 4 * 16 + b / 16, by omega⟩
    · subst hc
      exact b64Char_no_space_fin ⟨b % 16 * 4 + c2 / 64, by omega⟩
    · subst hc
      exact b64Char_no_space_fin ⟨c2 % 64, by omega⟩
    · exact ih (fun x hx => hb x (by simp [hx])) c hc

/-- Helper: group decoding inverts group encoding on octet lists. -/
theorem b64DecodeGroups_encode (bs : List Nat) (hb : ∀ x ∈ bs, x < 256) :
    b64DecodeGroups (b64EncodeGroups bs) = some bs := by
  induction bs using b64EncodeGroups.induct with
  | case1 => rfl
  | case2 a =>
    have h1 : a < 256 := hb a (by simp)
    have hi1 : b64Index (b64Char (a / 4)) = some (a / 4) := b64Index_b64Char (by omega)
    have hi2 : b64Index (b64Char (a % 4 * 16)) = some (a % 4 * 16) :=
      b64Index_b64Char (by omega)
    have hval : a / 4 * 4 + a % 4 * 16 / 16 = a := by omega
    simp only [b64EncodeGroups, b64DecodeGroups, hi1, hi2]
    simp
    omega
  | case3 a b =>
    have h1 : a < 256 := hb a (by simp)
    have h2 : b < 256 := hb b (by simp)
    have hi1 : b64Index (b64Char (a / 4)) = some (a / 4) := b64Index_b64Char (by omega)
    have hi2 : b64Index (b64Char (a % 4 * 16 + b / 16)) = some (a % 4 * 16 + b / 16) :=
      b64Index_b64Char (by omega)
    have hi3 : b64Index (b64Char (b % 16 * 4)) = some (b % 16 * 4) :=
      b64Index_b64Char (by omega)
    have hne : b64Char (b % 16 * 4) ≠ '=' := b64Char_ne_pad (by omega)
    have hv1 : a / 4 * 4 + (a % 4 * 16 + b / 16) / 16 = a := by omega
    have hv2 : (a % 4 * 16 + b / 16) % 16 * 16 + b % 16 * 4 / 4 = b := by omega
    simp only [b64EncodeGroups, b64DecodeGroups, hi1, hi2, hi3]
    simp [hne]
    omega
  | case4 a b c rest ih =>
    have h1 : a < 256 := hb a (by simp)
    have h2 : b < 256 := hb b (by simp)
    have h3 : c < 256 := hb c (by simp)
    have hrec := ih (fun x hx => hb x (by simp [hx]))
    have hi1 : b64Index (b64Char (a / 4)) = some (a / 4) := b64Index_b64Char (by omega)
    have hi2 : b64Index (b64Char (a % 4 * 16 + b / 16)) = some (a % 4 * 16 + b / 16) :=
      b64Index_b64Char (by omega)
    have hi3 : b64Index (b64Char (b % 16 * 4 + c / 64)) = some (b % 16 * 4 + c / 64) :=
      b64Index_b64Char (by omega)
    have hi4 : b64Index (b64Char (c % 64)) = some (c % 64) := b64Index_b64Char (by omega)
    have hne3 : b64Char (b % 16 * 4 + c / 64) ≠ '=' := b64Char_ne_pad (by omega)
    have hne4 : b64Char (c % 64) ≠ '=' := b64Char_ne_pad (by omega)
    have hv1 : a / 4 * 4 + (a % 4 * 16 + b / 16) / 16 = a := by omega
    have hv2 : (a % 4 * 16 + b / 16) % 16 * 16 + (b % 16 * 4 + c / 64) / 4 = b := by omega
    have hv3 : (b % 16 * 4 + c / 64) % 4 * 64 + c % 64 = c := by omega
    simp only [b64EncodeGroups, b64DecodeGroups, hi1, hi2, hi3, hi4]
    simp [hne3, hne4, hrec]
    omega

/-- Helper: `b64decode` inverts `b64encode` on octet lists. -/
theorem b64decode_b64encode (bs : List Nat) (hb : ∀ x ∈ bs, x < 256) :
    b64decode (b64encode bs) = some bs := by
  unfold b64decode b64encode
  rw [List.filter_eq_self.mpr (b64EncodeGroups_filter bs hb)]
  exact b64DecodeGroups_encode bs hb

/-- Helper: `dropWhile` is the identity when no element satisfies the
predicate. -/
theorem dropWhile_eq_of_all_false (pr : Char → Bool) (l : List Char)
    (h : ∀ c ∈ l, pr c = false) : l.dropWhile pr = l := by
  cases l with
  | nil => rfl
  | cons a as => simp [List.dropWhile_cons, h a (by simp)]

/-- Helper: stripping is the identity on whitespace-free character lists. -/
theorem pyStripList_noop (l : List Char) (h : ∀ c ∈ l, isPySpace c = false) :
    pyStripList l = l := by
  unfold pyStripList
  rw [dropWhile_eq_of_all_false _ _ h,
    dropWhile_eq_of_all_false _ _ (fun c hc => h c (List.mem_reverse.mp hc)),
    List.reverse_reverse]

/-- Helper: `str.strip()` leaves a base64 encoding unchanged. -/
theorem pyStrip_b64encode (bs : List Nat) (hb : ∀ x ∈ bs, x < 256) :
    pyStrip (b64encode bs) = b64encode bs := by
  unfold pyStrip b64encode
  rw [pyStripList_noop _ (b64EncodeGroups_no_space bs hb)]

/-- Helper: the UTF-8 encoding of a non-empty string is non-empty. -/
theorem utf8Encode_ne_nil (s : String) (h : s ≠ "") : utf8Encode s ≠ [] := by
  obtain ⟨l⟩ := s
  cases l with
  | nil => exact absurd rfl h
  | cons a as =>
    unfold utf8Encode
    simp only [List.map_cons, List.flatten_cons, ne_eq, List.append_eq_nil]
    intro hc
    exact utf8EncodeChar_ne_nil a.toNat hc.1

/-- Helper: group encoding of a non-empty octet list is non-empty. -/
theorem b64EncodeGroups_ne_nil (bs : List Nat) (h : bs ≠ []) :
    b64EncodeGroups bs ≠ [] := by
  match bs with
  | [] => exact absurd rfl h
  | [a] => simp [b64EncodeGroups]
  | [a, b] => simp [b64EncodeGroups]
  | a :: b :: c :: rest => simp [b64EncodeGroups]

/-- Helper: the base64 encoding of a non-empty octet list is a non-empty
string. -/
theorem b64encode_ne_empty (bs : List Nat) (h : bs ≠ []) : b64encode bs ≠ "" := by
  unfold b64encode
  intro hc
  exact b64EncodeGroups_ne_nil bs h (congrArg String.data hc)

/-- C8 (corrected): for every NON-EMPTY text payload, base64-encoding it and
supplying the encoding through either input source (environment variable, or
stripped stdin when the variable is absent) makes the writer exit 0 and write
exactly the original payload; the writer exits 1 writing nothing when the
destination argument is missing, when both sources are empty, or when base64
decoding fails.  The empty payload is excluded: its base64 encoding is the
empty string, which the writer rejects as missing input. -/
theorem C8_writer_round_trip :
    (∀ (argv : List String) (s stdin : String), 2 ≤ argv.length → s ≠ "" →
      write_user_data_main argv (some (b64encode (utf8Encode s))) stdin = ⟨0, some s⟩) ∧
    (∀ (argv : List String) (s : String), 2 ≤ argv.length → s ≠ "" →
      write_user_data_main argv none (b64encode (utf8Encode s)) = ⟨0, some s⟩) ∧
    (∀ (argv : List String) (env : Option String) (stdin : String), argv.length < 2 →
      write_user_data_main argv env stdin = ⟨1, none⟩) ∧
    (∀ (argv : List String) (env : Option String) (stdin : String),
      env.getD "" = "" → pyStrip stdin = "" →
      write_user_data_main argv env stdin = ⟨1, none⟩) ∧
    (∀ (argv : List String) (b64 : String), b64 ≠ "" → b64decode b64 = none →
      write_user_data_main argv (some b64) "" = ⟨1, none⟩) := by
  refine ⟨?_, ?_, ?_, ?_, ?_⟩
  · intro argv s stdin hlen hs
    have hne : b64encode (utf8Encode s) ≠ "" :=
      b64encode_ne_empty _ (utf8Encode_ne_nil s hs)
    simp only [write_user_data_main, Option.getD_some]
    rw [if_neg (by omega), if_pos hne, if_neg hne,
      b64decode_b64encode _ (utf8Encode_lt_256 s)]
    simp [utf8Decode_utf8Encode]
  · intro argv s hlen hs
    have hb : ∀ x ∈ utf8Encode s, x < 256 := utf8Encode_lt_256 s
    have hne : b64encode (utf8Encode s) ≠ "" :=
      b64encode_ne_empty _ (utf8Encode_ne_nil s hs)
    simp only [write_user_data_main, Option.getD_none]
    rw [if_neg (by omega), if_neg (show ¬("" ≠ "") by simp), pyStrip_b64encode _ hb,
      if_neg hne, b64decode_b64encode _ hb]
    simp [utf8Decode_utf8Encode]
  · intro argv env stdin hlen
    simp only [write_user_data_main]
    rw [if_pos hlen]
  · intro argv env stdin he hs
    simp only [write_user_data_main]
    by_cases hl : argv.length < 2
    · rw [if_pos hl]
    · rw [if_neg hl, he, if_neg (show ¬("" ≠ "") by simp), hs, if_pos rfl]
  · intro argv b64 hne hdec
    simp only [write_user_data_main, Option.getD_some]
    by_cases hl : argv.length < 2
    · rw [if_pos hl]
    · rw [if_neg hl, if_pos hne, if_neg hne, hdec]

/-- C8 counterexample: the round trip claimed for EVERY payload fails at the
empty payload — its base64 encoding is the empty string, so with that
encoding supplied to both sources the writer exits 1 and writes nothing,
instead of reproducing the (empty) content. -/
theorem C8_counterexample :
    b64encode (utf8Encode "") = "" ∧
    write_user_data_main ["write_user_data.py", "user_data.sh"]
      (some (b64encode (utf8Encode ""))) (b64encode (utf8Encode "")) = ⟨1, none⟩ :=
  ⟨rfl, rfl⟩

/-- C8 witness: the corrected contract applied at concrete inputs — a real
boot script round-trips through both sources, a missing destination argument,
empty sources, and an unpadded base64 string each exit 1. -/
theorem C8_writer_round_trip_witness :
    write_user_data_main ["write_user_data.py", "user_data.sh"]
      (some (b64encode (utf8Encode "#!/bin/bash\necho ok\n"))) "" =
      ⟨0, some "#!/bin/bash\necho ok\n"⟩ ∧
    write_user_data_main ["write_user_data.py", "user_data.sh"] none
      (b64encode (utf8Encode "#!/bin/bash\necho ok\n")) =
      ⟨0, some "#!/bin/bash\necho ok\n"⟩ ∧
    write_user_data_main ["write_user_data.py"] (some "AAAA") "x" = ⟨1, none⟩ ∧
    write_user_data_main ["write_user_data.py", "user_data.sh"] none "  \n" = ⟨1, none⟩ ∧
    write_user_data_main ["write_user_data.py", "user_data.sh"] (some "A") "" = ⟨1, none⟩ :=
  ⟨C8_writer_round_trip.1 _ _ _ (by decide) (by decide),
   C8_writer_round_trip.2.1 _ _ (by decide) (by decide),
   C8_writer_round_trip.2.2.1 _ _ _ (by decide),
   C8_writer_round_trip.2.2.2.1 _ _ _ rfl (by decide),
   C8_writer_round_trip.2.2.2.2 _ _ (by decide) (by decide)⟩
